import Mathlib

/-!
Verification development for the Ghana Marketplace backend.

Shallow embedding of the cart-merge and order-commit core:
the cart controller (`getUserCart`, `syncCart`, `saveCart`, `clearCart`)
and the order controller (`createOrder`, `updateOrderStatus`) together
with the relevant parts of the drizzle schema (`products`, `cart`,
`orders`, `orderItems` tables, their foreign keys).

Modelling conventions:
* Each SQL table is a list of row structures; serial primary keys for
  orders are modelled with an explicit `nextOrderId` counter.
* `parseInt` on the numeric string keys of the client cart object is
  modelled by `parseId` (ids in this system are positive serials).
* JavaScript truthiness of the `userId` request field (`body.userId ||
  req.user?.id`, `if (!userId)`) is modelled by `truthyId` on
  `Option Nat` (`0` and a missing field are falsy).
* Foreign keys declared in `schema.ts` (`cart.userId → users.id`,
  `cart.productId → products.id`, `orders.userId → users.id`) are
  enforced by the insert operations, which fail like a throwing
  database call does; the controllers' catch-blocks turn such a
  failure into a 500 response while keeping all previously committed
  row writes (there are no transactions in the source).
* Storage unavailability inside `createOrder` is modelled by a `Fault`
  schedule saying which write step of the checkout throws.
* Cart snapshots `Record<string, Record<string, number>>` are ordered
  association lists; response reshaping to the nested record is kept
  as the flat list of (product, size, quantity) rows of the owner.
-/

namespace Market

/-- One row of the `products` table (fields used by the cart/order core).
The decimal price column is modelled as a natural number of currency
units; none of the verified properties depend on its arithmetic. -/
structure Product where
  id : Nat
  name : String
  price : Nat
  inStock : Bool
deriving Repr, DecidableEq

/-- One row of the `cart` table: (owner, product, size, quantity). -/
structure CartLine where
  userId : Nat
  productId : Nat
  size : String
  quantity : Int
deriving Repr, DecidableEq

/-- The guest contact triple stored in `orders.guestInfo`. -/
structure GuestInfo where
  name : String
  email : String
  phone : String
deriving Repr, DecidableEq

/-- The `orders.shippingAddress` JSON column.  `createOrder` only tests
its presence, never its fields. -/
structure Address where
  homeAddress : String
  city : String
  regionOrState : String
  country : String
  zipCode : String
deriving Repr, DecidableEq

/-- One row of the `orders` table. -/
structure OrderRec where
  id : Nat
  userId : Option Nat
  totalAmount : Int
  status : String
  shippingAddress : Address
  guestInfo : Option GuestInfo
  paymentStatus : String
deriving Repr, DecidableEq

/-- One row of the `orderItems` table (its own serial id is omitted,
nothing reads it). -/
structure OrderItemRec where
  orderId : Nat
  productId : Nat
  quantity : Int
  price : Nat
  size : String
deriving Repr, DecidableEq

/-- The persistent state: the tables touched by the core.  `users` is
just the list of existing user ids (only foreign keys look at it). -/
structure DB where
  users : List Nat
  products : List Product
  cart : List CartLine
  orders : List OrderRec
  orderItems : List OrderItemRec
  nextOrderId : Nat
deriving Repr, DecidableEq

/-- A client cart snapshot `{ [productId]: { [size]: quantity } }`,
as an ordered association list (JS object iteration order). -/
abbrev Snapshot := List (String × List (String × Int))

/-- `parseInt` applied to a cart-object key, for the numeric-string keys
this system uses (ids are positive serials printed in decimal).  Keys
that are not digit strings do not denote an id and parse to `none`,
matching the `isNaN` guard in the controllers. -/
def parseId (s : String) : Option Nat :=
  if !s.data.isEmpty && s.data.all (fun c => c.isDigit) then
    some (s.data.foldl (fun n c => n * 10 + (c.toNat - 48)) 0)
  else none

/-- JS truthiness of an optional numeric id (`undefined` and `0` are
falsy). -/
def truthyId : Option Nat → Bool
  | none => false
  | some n => n != 0

/-- `req.body.userId || req.user?.id`. -/
def resolveUserId (body auth : Option Nat) : Option Nat :=
  if truthyId body then body else auth

/-- Value of an optional id after the truthiness guard. -/
def idVal : Option Nat → Nat
  | none => 0
  | some n => n

/-- JS truthiness of an optional string (missing and `""` are falsy). -/
def truthyStr : Option String → Bool
  | none => false
  | some s => s != ""

/-- Value of an optional string after the truthiness guard. -/
def strVal : Option String → String
  | none => ""
  | some s => s

/-- The WHERE-key of the cart sync select:
`userId = u AND productId = pid AND size = size`. -/
def lineKey (u pid : Nat) (size : String) (l : CartLine) : Bool :=
  l.userId == u && l.productId == pid && l.size == size

/-- Quantity stored for a (owner, product, size) key: the first matching
row, as selected with `.limit(1)` (the key is unique in practice). -/
def lookupQ (cs : List CartLine) (u pid : Nat) (size : String) : Option Int :=
  (cs.find? (lineKey u pid size)).map (fun l => l.quantity)

/-- `UPDATE cart SET quantity = max(old, q) WHERE id = <id of the first
matching row>`: rewrites the quantity of the first row matching the key. -/
def updateFirst (u pid : Nat) (size : String) (q : Int) : List CartLine → List CartLine
  | [] => []
  | l :: ls =>
    if lineKey u pid size l then { l with quantity := max l.quantity q } :: ls
    else l :: updateFirst u pid size q ls

/-- `INSERT INTO cart VALUES (row)`.  Fails (throws) when one of the
foreign keys `cart.userId → users.id`, `cart.productId → products.id`
is violated; otherwise appends the row. -/
def insertCartRow (users : List Nat) (cat : List Product) (row : CartLine)
    (cs : List CartLine) : Option (List CartLine) :=
  if users.contains row.userId && (cat.find? (fun p => p.id == row.productId)).isSome then
    some (cs ++ [row])
  else none

/-- Inner loop of `syncCart`: for each size of a verified product,
skip non-positive quantities, update an existing row to the max of old
and incoming quantity, otherwise insert.  Returns `false` together with
the rows written so far when an insert throws. -/
def syncSizes (users : List Nat) (cat : List Product) (u pid : Nat) :
    List (String × Int) → List CartLine → Bool × List CartLine
  | [], cs => (true, cs)
  | (size, q) :: rest, cs =>
    if q ≤ 0 then syncSizes users cat u pid rest cs
    else if (cs.find? (lineKey u pid size)).isSome then
      syncSizes users cat u pid rest (updateFirst u pid size q cs)
    else
      match insertCartRow users cat ⟨u, pid, size, q⟩ cs with
      | some cs1 => syncSizes users cat u pid rest cs1
      | none => (false, cs)

/-- Outer loop of `syncCart`: per product key, skip keys that do not
parse and products absent from the catalog, then merge the sizes. -/
def syncProducts (users : List Nat) (cat : List Product) (u : Nat) :
    Snapshot → List CartLine → Bool × List CartLine
  | [], cs => (true, cs)
  | (pidStr, sizes) :: rest, cs =>
    match parseId pidStr with
    | none => syncProducts users cat u rest cs
    | some pid =>
      if (cat.find? (fun p => p.id == pid)).isSome then
        match syncSizes users cat u pid sizes cs with
        | (true, cs1) => syncProducts users cat u rest cs1
        | (false, cs1) => (false, cs1)
      else syncProducts users cat u rest cs

/-- Inner loop of `saveCart`: insert every size with positive quantity;
no catalog check is performed here (unlike `syncCart`). -/
def saveSizes (users : List Nat) (cat : List Product) (u pid : Nat) :
    List (String × Int) → List CartLine → Bool × List CartLine
  | [], cs => (true, cs)
  | (size, q) :: rest, cs =>
    if 0 < q then
      match insertCartRow users cat ⟨u, pid, size, q⟩ cs with
      | some cs1 => saveSizes users cat u pid rest cs1
      | none => (false, cs)
    else saveSizes users cat u pid rest cs

/-- Outer loop of `saveCart`: skip keys that do not parse, insert the
rest. -/
def saveItems (users : List Nat) (cat : List Product) (u : Nat) :
    Snapshot → List CartLine → Bool × List CartLine
  | [], cs => (true, cs)
  | (pidStr, sizes) :: rest, cs =>
    match parseId pidStr with
    | none => saveItems users cat u rest cs
    | some pid =>
      match saveSizes users cat u pid sizes cs with
      | (true, cs1) => saveItems users cat u rest cs1
      | (false, cs1) => (false, cs1)

/-- Response reshaping of a cart row for the nested
`{ [productId]: { [size]: quantity } }` JSON (`item.size || "default"`).
The nested record is represented by the flat list of its triples. -/
def toSnapshotRow (l : CartLine) : Nat × String × Int :=
  (l.productId, (if l.size = "" then "default" else l.size), l.quantity)

/-- Responses of the four cart endpoints. -/
inductive CartResp
  | authRequired
  | invalidCart
  | storageError
  | okGet (rows : List (Nat × String × Int))
  | okSync (rows : List (Nat × String × Int))
  | okSave
  | okClear
deriving Repr, DecidableEq

/-- GET /api/v1/cart. -/
def getUserCart (body auth : Option Nat) (db : DB) : CartResp × DB :=
  let uid := resolveUserId body auth
  if !truthyId uid then (.authRequired, db)
  else (.okGet ((db.cart.filter (fun l => l.userId == idVal uid)).map toSnapshotRow), db)

/-- DELETE /api/v1/cart. -/
def clearCart (body auth : Option Nat) (db : DB) : CartResp × DB :=
  let uid := resolveUserId body auth
  if !truthyId uid then (.authRequired, db)
  else (.okClear, { db with cart := db.cart.filter (fun l => l.userId != idVal uid) })

/-- POST /api/v1/cart/sync. -/
def syncCart (body auth : Option Nat) (cartItems : Option Snapshot) (db : DB) :
    CartResp × DB :=
  let uid := resolveUserId body auth
  if !truthyId uid then (.authRequired, db)
  else
    match cartItems with
    | none => (.invalidCart, db)
    | some snap =>
      match syncProducts db.users db.products (idVal uid) snap db.cart with
      | (true, cs) =>
        (.okSync ((cs.filter (fun l => l.userId == idVal uid)).map toSnapshotRow),
         { db with cart := cs })
      | (false, cs) => (.storageError, { db with cart := cs })

/-- POST /api/v1/cart/save. -/
def saveCart (body auth : Option Nat) (cartItems : Option Snapshot) (db : DB) :
    CartResp × DB :=
  let uid := resolveUserId body auth
  if !truthyId uid then (.authRequired, db)
  else
    match cartItems with
    | none => (.invalidCart, db)
    | some snap =>
      let cleared := db.cart.filter (fun l => l.userId != idVal uid)
      match saveItems db.users db.products (idVal uid) snap cleared with
      | (true, cs) => (.okSave, { db with cart := cs })
      | (false, cs) => (.storageError, { db with cart := cs })

/-- An order line staged by the checkout validation loop before any row
is written (`orderItemsData.push({...})`). -/
structure StagedItem where
  productId : Nat
  quantity : Int
  price : Nat
  size : String
deriving Repr, DecidableEq

/-- Validation loop of `createOrder`: iterate the snapshot's product
entries; skip keys that do not parse and products absent from the
catalog; hard-stop with the product's name if its stock flag is false;
otherwise stage one order line per size with positive quantity, with
the unit price frozen from the catalog row. -/
def stageItems (cat : List Product) : Snapshot → Except String (List StagedItem)
  | [] => .ok []
  | (pidStr, sizes) :: rest =>
    match parseId pidStr with
    | none => stageItems cat rest
    | some pid =>
      match cat.find? (fun p => p.id == pid) with
      | none => stageItems cat rest
      | some prod =>
        if prod.inStock then
          match stageItems cat rest with
          | .ok tail =>
            .ok (((sizes.filter (fun sq => decide (0 < sq.2))).map
                   (fun sq => ⟨pid, sq.2, prod.price, sq.1⟩)) ++ tail)
          | .error e => .error e
        else .error prod.name

/-- `totalAmount` accumulated over the staged lines
(`itemTotal = price * quantity`). -/
def stagedTotal (items : List StagedItem) : Int :=
  items.foldl (fun a i => a + (i.price : Int) * i.quantity) 0

/-- Responses of POST /api/v1/orders. -/
inductive OrderResp
  | guestRequired
  | guestIncomplete
  | invalidCart
  | shippingRequired
  | outOfStock (pname : String)
  | noValidItems
  | created (oid : Nat)
  | storageError
deriving Repr, DecidableEq

/-- Storage-failure schedule for one `createOrder` request: every write
succeeds, or the order-items inserts throw (after the order header
insert already committed), or the final cart delete throws. -/
inductive Fault
  | ok
  | itemsFail
  | clearFail
deriving Repr, DecidableEq

/-- `guestInfo.name && guestInfo.email && guestInfo.phone` all truthy. -/
def completeGuest (g : GuestInfo) : Bool :=
  g.name != "" && g.email != "" && g.phone != ""

/-- The second `createOrder` guard: guest info is present but one of
name/email/phone is falsy. -/
def guestIncomplete : Option GuestInfo → Bool
  | none => false
  | some g => !completeGuest g

/-- The request body of POST /api/v1/orders (plus the authenticated
identity the auth middleware may attach). -/
structure OrderReq where
  bodyUserId : Option Nat
  authUserId : Option Nat
  cartItems : Option Snapshot
  shippingAddress : Option Address
  guestInfo : Option GuestInfo
deriving Repr, DecidableEq

/-- The validation phase of `createOrder`, in source order, first
failure winning: (1) a truthy user id or guest info must be present;
(2) present guest info must be complete; (3) `cartItems` must be a
well-formed object; (4) a shipping address must be present; then the
catalog loop stages the lines (out-of-stock hard stop) and an order
with zero staged lines is rejected. -/
def checkoutPlan (req : OrderReq) (db : DB) :
    Except OrderResp (Option Nat × Option GuestInfo × Address × List StagedItem) :=
  let uid := resolveUserId req.bodyUserId req.authUserId
  if !truthyId uid && req.guestInfo.isNone then .error .guestRequired
  else if guestIncomplete req.guestInfo then .error .guestIncomplete
  else
    match req.cartItems with
    | none => .error .invalidCart
    | some items =>
      match req.shippingAddress with
      | none => .error .shippingRequired
      | some addr =>
        match stageItems db.products items with
        | .error pname => .error (.outOfStock pname)
        | .ok staged =>
          if staged.isEmpty then .error .noValidItems
          else .ok (uid, req.guestInfo, addr, staged)

/-- `INSERT INTO orders ... RETURNING`: appends the order header with a
fresh serial id, status and payment status "pending".  Fails when the
nullable foreign key `orders.userId → users.id` is violated. -/
def insertOrder (db : DB) (ownerId : Option Nat) (total : Int) (addr : Address)
    (g : Option GuestInfo) : Option (Nat × DB) :=
  let fkOk := match ownerId with
    | none => true
    | some n => db.users.contains n
  if fkOk then
    some (db.nextOrderId,
      { db with
        orders := db.orders ++
          [⟨db.nextOrderId, ownerId, total, "pending", addr, g, "pending"⟩],
        nextOrderId := db.nextOrderId + 1 })
  else none

/-- The order-items inserts: one row per staged line, keyed to the new
order id.  Their foreign keys always hold here (the order id is the one
just created and every staged product id was found in the catalog). -/
def insertOrderItems (db : DB) (oid : Nat) (staged : List StagedItem) : DB :=
  { db with
    orderItems := db.orderItems ++
      staged.map (fun i => ⟨oid, i.productId, i.quantity, i.price, i.size⟩) }

/-- The write phase of `createOrder`: insert the order header
(`userId: userId || null`, `guestInfo: guestInfo || null`), then the
order items, then — only for a truthy user id — delete that user's cart
rows.  A throwing write is caught by the handler, which answers 500
while every already-committed write stays in place (no transaction). -/
def persistOrder (uid : Option Nat) (g : Option GuestInfo) (addr : Address)
    (staged : List StagedItem) (f : Fault) (db : DB) : OrderResp × DB :=
  match insertOrder db (if truthyId uid then uid else none) (stagedTotal staged) addr g with
  | none => (.storageError, db)
  | some (oid, db1) =>
    if f == Fault.itemsFail then (.storageError, db1)
    else
      let db2 := insertOrderItems db1 oid staged
      if truthyId uid then
        if f == Fault.clearFail then (.storageError, db2)
        else (.created oid, { db2 with cart := db2.cart.filter (fun l => l.userId != idVal uid) })
      else (.created oid, db2)

/-- POST /api/v1/orders (checkout). -/
def createOrder (req : OrderReq) (f : Fault) (db : DB) : OrderResp × DB :=
  match checkoutPlan req db with
  | .error r => (r, db)
  | .ok (uid, g, addr, staged) => persistOrder uid g addr staged f db

/-- Responses of PUT /api/v1/orders/:id. -/
inductive StatusResp
  | idRequired
  | invalidId
  | statusRequired
  | invalidStatus
  | notFound
  | updated (oid : Nat) (status : String)
deriving Repr, DecidableEq

/-- The five statuses accepted by `updateOrderStatus`. -/
def validStatuses : List String :=
  ["pending", "processing", "shipped", "delivered", "cancelled"]

/-- PUT /api/v1/orders/:id: after input validation and an existence
check, sets the order's status to the requested value — no condition on
the current status is checked. -/
def updateOrderStatus (idStr st : Option String) (db : DB) : StatusResp × DB :=
  if !truthyStr idStr then (.idRequired, db)
  else
    match parseId (strVal idStr) with
    | none => (.invalidId, db)
    | some oid =>
      if !truthyStr st then (.statusRequired, db)
      else if !(validStatuses.contains (strVal st)) then (.invalidStatus, db)
      else if (db.orders.find? (fun o => o.id == oid)).isSome then
        (.updated oid (strVal st),
         { db with
           orders := db.orders.map
             (fun o => if o.id == oid then { o with status := strVal st } else o) })
      else (.notFound, db)

/-- Effect of one incoming (size, quantity) pair on the stored quantity
of one key: non-positive quantities are skipped, otherwise the stored
quantity becomes the max of old and new (or the new quantity if no row
existed). -/
def qstep (v : Option Int) (q : Int) : Option Int :=
  if q ≤ 0 then v
  else
    match v with
    | some x => some (max x q)
    | none => some q

/-- Effect of a size map on the stored quantity of one size key. -/
def qfold : List (String × Int) → String → Option Int → Option Int
  | [], _, v => v
  | (s, q) :: rest, size, v => qfold rest size (if s = size then qstep v q else v)

/-- Effect of a whole snapshot merge on the stored quantity of one
(product, size) key: only entries whose key parses to this product id
and whose product exists in the catalog contribute. -/
def entryFold (cat : List Product) : Snapshot → Nat → String → Option Int → Option Int
  | [], _, _, v => v
  | (pidStr, sizes) :: rest, pid, size, v =>
    entryFold cat rest pid size
      (match parseId pidStr with
       | some pid' =>
         if pid' == pid && (cat.find? (fun p => p.id == pid)).isSome then
           qfold sizes size v
         else v
       | none => v)

/-- Max-merge of one more incoming quantity into an optional stored
quantity (the positive-quantity case of `qstep`). -/
def omax : Option Int → Int → Option Int
  | none, q => some q
  | some x, q => some (max x q)

/-- The positive quantities a size map contributes to one size key. -/
def posQs (sizes : List (String × Int)) (size : String) : List Int :=
  (sizes.filter (fun sq => sq.1 == size && decide (0 < sq.2))).map (fun sq => sq.2)

/-- The positive quantities a snapshot contributes to one
(product, size) key. -/
def snapQs (cat : List Product) : Snapshot → Nat → String → List Int
  | [], _, _ => []
  | (pidStr, sizes) :: rest, pid, size =>
    (match parseId pidStr with
     | some pid' =>
       if pid' == pid && (cat.find? (fun p => p.id == pid)).isSome then posQs sizes size
       else []
     | none => []) ++ snapQs cat rest pid size

/-- The entries of a snapshot that the sync loop does not skip: the key
parses to a catalog product id, and only positive quantities remain. -/
def validSnapshot (cat : List Product) (snap : Snapshot) : Snapshot :=
  (snap.filter (fun e =>
    match parseId e.1 with
    | some pid => (cat.find? (fun p => p.id == pid)).isSome
    | none => false)).map (fun e => (e.1, e.2.filter (fun sq => decide (0 < sq.2))))

/-- The entries of a snapshot that the save loop does not skip: the key
parses, and only positive quantities remain (no catalog check). -/
def parsedSnapshot (snap : Snapshot) : Snapshot :=
  (snap.filter (fun e => (parseId e.1).isSome)).map
    (fun e => (e.1, e.2.filter (fun sq => decide (0 < sq.2))))


/-! ### Lemmas about the per-key view of the cart table -/

theorem lineKey_quantity_update (u pid : Nat) (s : String) (l : CartLine) (w : Int) :
    lineKey u pid s { l with quantity := w } = lineKey u pid s l := rfl

theorem lineKey_eq_iff (u pid : Nat) (s : String) (l : CartLine) :
    lineKey u pid s l = true ↔ l.userId = u ∧ l.productId = pid ∧ l.size = s := by
  simp [lineKey, Bool.and_assoc]

theorem lookupQ_cons (u pid : Nat) (s : String) (l : CartLine) (ls : List CartLine) :
    lookupQ (l :: ls) u pid s =
      if lineKey u pid s l then some l.quantity else lookupQ ls u pid s := by
  by_cases h : lineKey u pid s l = true
  · simp [lookupQ, List.find?_cons_of_pos, h]
  · simp [lookupQ, List.find?_cons_of_neg, h]

theorem lookupQ_updateFirst_self (u pid : Nat) (s : String) (q x : Int) :
    ∀ cs : List CartLine, lookupQ cs u pid s = some x →
      lookupQ (updateFirst u pid s q cs) u pid s = some (max x q) := by
  intro cs
  induction cs with
  | nil => intro h; simp [lookupQ] at h
  | cons l ls ih =>
    intro h
    by_cases hk : lineKey u pid s l = true
    · rw [lookupQ_cons, if_pos hk] at h
      rw [updateFirst, if_pos hk, lookupQ_cons, lineKey_quantity_update, if_pos hk]
      simp at h
      simp [h]
    · rw [lookupQ_cons, if_neg hk] at h
      rw [updateFirst, if_neg hk, lookupQ_cons, if_neg hk]
      exact ih h

theorem lookupQ_updateFirst_ne (u pid : Nat) (s : String) (q : Int)
    (u' pid' : Nat) (s' : String) (hne : ¬(u' = u ∧ pid' = pid ∧ s' = s)) :
    ∀ cs : List CartLine,
      lookupQ (updateFirst u pid s q cs) u' pid' s' = lookupQ cs u' pid' s' := by
  intro cs
  induction cs with
  | nil => rfl
  | cons l ls ih =>
    by_cases hk : lineKey u pid s l = true
    · rw [updateFirst, if_pos hk, lookupQ_cons, lineKey_quantity_update, lookupQ_cons]
      by_cases hk' : lineKey u' pid' s' l = true
      · exfalso
        rcases (lineKey_eq_iff u pid s l).1 hk with ⟨e1, e2, e3⟩
        rcases (lineKey_eq_iff u' pid' s' l).1 hk' with ⟨f1, f2, f3⟩
        exact hne ⟨f1 ▸ e1 ▸ rfl, f2 ▸ e2 ▸ rfl, f3 ▸ e3 ▸ rfl⟩
      · rw [if_neg hk', if_neg hk']
    · rw [updateFirst, if_neg hk, lookupQ_cons, lookupQ_cons]
      by_cases hk' : lineKey u' pid' s' l = true
      · rw [if_pos hk', if_pos hk']
      · rw [if_neg hk', if_neg hk', ih]

theorem lookupQ_append_of_some (u pid : Nat) (s : String) (x : Int)
    (cs : List CartLine) (row : CartLine) (h : lookupQ cs u pid s = some x) :
    lookupQ (cs ++ [row]) u pid s = some x := by
  rcases Option.map_eq_some'.1 h with ⟨l, hl, hq⟩
  simp [lookupQ, List.find?_append, hl, hq]

theorem lookupQ_append_of_none (u pid : Nat) (s : String)
    (cs : List CartLine) (row : CartLine) (h : lookupQ cs u pid s = none) :
    lookupQ (cs ++ [row]) u pid s =
      if lineKey u pid s row then some row.quantity else none := by
  have hf : cs.find? (lineKey u pid s) = none := by
    cases hc : cs.find? (lineKey u pid s) with
    | none => rfl
    | some l => rw [lookupQ, hc] at h; simp at h
  by_cases hk : lineKey u pid s row = true
  · simp [lookupQ, List.find?_append, hf, List.find?_cons_of_pos, hk]
  · simp [lookupQ, List.find?_append, hf, List.find?_cons_of_neg, hk, hk]

/-- View change of one upsert step when a row for the key exists. -/
theorem lookupQ_upsert_found (u pid : Nat) (s : String) (q x : Int)
    (cs : List CartLine) (hx : lookupQ cs u pid s = some x) :
    ∀ (u' pid' : Nat) (s' : String),
      lookupQ (updateFirst u pid s q cs) u' pid' s' =
        if u' = u ∧ pid' = pid ∧ s' = s then some (max x q)
        else lookupQ cs u' pid' s' := by
  intro u' pid' s'
  by_cases he : u' = u ∧ pid' = pid ∧ s' = s
  · rcases he with ⟨e1, e2, e3⟩
    subst e1; subst e2; subst e3
    rw [if_pos ⟨rfl, rfl, rfl⟩]
    exact lookupQ_updateFirst_self u' pid' s' q x cs hx
  · rw [if_neg he]
    exact lookupQ_updateFirst_ne u pid s q u' pid' s' he cs

/-- View change of one upsert step when no row for the key exists. -/
theorem lookupQ_upsert_insert (u pid : Nat) (s : String) (q : Int)
    (cs : List CartLine) (hx : lookupQ cs u pid s = none) :
    ∀ (u' pid' : Nat) (s' : String),
      lookupQ (cs ++ [(⟨u, pid, s, q⟩ : CartLine)]) u' pid' s' =
        if u' = u ∧ pid' = pid ∧ s' = s then some q
        else lookupQ cs u' pid' s' := by
  intro u' pid' s'
  by_cases he : u' = u ∧ pid' = pid ∧ s' = s
  · rcases he with ⟨e1, e2, e3⟩
    subst e1; subst e2; subst e3
    rw [if_pos ⟨rfl, rfl, rfl⟩, lookupQ_append_of_none u' pid' s' cs _ hx]
    simp [lineKey]
  · rw [if_neg he]
    cases hc : lookupQ cs u' pid' s' with
    | some y => exact lookupQ_append_of_some u' pid' s' y cs _ hc
    | none =>
      rw [lookupQ_append_of_none u' pid' s' cs _ hc]
      have hk : lineKey u' pid' s' (⟨u, pid, s, q⟩ : CartLine) = false := by
        by_contra hkk
        simp only [Bool.not_eq_false] at hkk
        rcases (lineKey_eq_iff u' pid' s' _).1 hkk with ⟨f1, f2, f3⟩
        exact he ⟨f1.symm, f2.symm, f3.symm⟩
      rw [hk]
      simp

/-- Characterization of the inner sync loop: it never fails for an
existing user and catalog product, and its effect on the per-key view is
`qfold` on the keys of this product, identity elsewhere. -/
theorem syncSizes_char (users : List Nat) (cat : List Product) (u pid : Nat)
    (hu : users.contains u = true)
    (hp : (cat.find? (fun p => p.id == pid)).isSome = true) :
    ∀ (sizes : List (String × Int)) (cs : List CartLine),
      (syncSizes users cat u pid sizes cs).1 = true ∧
      ∀ (u' pid' : Nat) (s' : String),
        lookupQ (syncSizes users cat u pid sizes cs).2 u' pid' s' =
          if u' = u ∧ pid' = pid then qfold sizes s' (lookupQ cs u' pid' s')
          else lookupQ cs u' pid' s' := by
  intro sizes
  induction sizes with
  | nil =>
    intro cs
    refine ⟨rfl, ?_⟩
    intro u' pid' s'
    rw [qfold]
    split <;> rfl
  | cons sq rest ih =>
    obtain ⟨s, q⟩ := sq
    intro cs
    by_cases hq : q ≤ 0
    · have hstep : syncSizes users cat u pid ((s, q) :: rest) cs
          = syncSizes users cat u pid rest cs := by
        simp only [syncSizes, if_pos hq]
      rw [hstep]
      refine ⟨(ih cs).1, ?_⟩
      intro u' pid' s'
      rw [(ih cs).2 u' pid' s', qfold]
      by_cases he : u' = u ∧ pid' = pid
      · rw [if_pos he, if_pos he]
        simp [qstep, hq]
      · rw [if_neg he, if_neg he]
    · by_cases hfind : (cs.find? (lineKey u pid s)).isSome = true
      · have hstep : syncSizes users cat u pid ((s, q) :: rest) cs
            = syncSizes users cat u pid rest (updateFirst u pid s q cs) := by
          simp only [syncSizes, if_neg hq, if_pos hfind]
        rw [hstep]
        rcases Option.isSome_iff_exists.1 hfind with ⟨l, hl⟩
        have hx : lookupQ cs u pid s = some l.quantity := by
          rw [lookupQ, hl]; rfl
        refine ⟨(ih _).1, ?_⟩
        intro u' pid' s'
        rw [(ih _).2 u' pid' s', qfold]
        by_cases he : u' = u ∧ pid' = pid
        · rw [if_pos he, if_pos he]
          rcases he with ⟨e1, e2⟩
          subst e1; subst e2
          by_cases hs : s = s'
          · subst hs
            rw [if_pos rfl]
            congr 1
            rw [lookupQ_upsert_found u' pid' s q l.quantity cs hx u' pid' s,
                if_pos ⟨rfl, rfl, rfl⟩, hx]
            simp [qstep, hq]
          · rw [if_neg hs]
            congr 1
            rw [lookupQ_upsert_found u' pid' s q l.quantity cs hx u' pid' s',
                if_neg (fun h => hs h.2.2.symm)]
        · rw [if_neg he, if_neg he,
              lookupQ_upsert_found u pid s q l.quantity cs hx u' pid' s',
              if_neg (fun h => he ⟨h.1, h.2.1⟩)]
      · have hfindn : cs.find? (lineKey u pid s) = none := by
          cases hc : cs.find? (lineKey u pid s) with
          | none => rfl
          | some l => exact absurd (by rw [hc]; rfl) hfind
        have hnone : lookupQ cs u pid s = none := by
          rw [lookupQ, hfindn]; rfl
        have hmem : u ∈ users := by simpa using hu
        have hins : insertCartRow users cat ⟨u, pid, s, q⟩ cs
            = some (cs ++ [⟨u, pid, s, q⟩]) := by
          simp [insertCartRow, hp, hmem]
        have hstep : syncSizes users cat u pid ((s, q) :: rest) cs
            = syncSizes users cat u pid rest (cs ++ [⟨u, pid, s, q⟩]) := by
          simp only [syncSizes, if_neg hq, if_neg hfind, hins]
        rw [hstep]
        refine ⟨(ih _).1, ?_⟩
        intro u' pid' s'
        rw [(ih _).2 u' pid' s', qfold]
        by_cases he : u' = u ∧ pid' = pid
        · rw [if_pos he, if_pos he]
          rcases he with ⟨e1, e2⟩
          subst e1; subst e2
          by_cases hs : s = s'
          · subst hs
            rw [if_pos rfl]
            congr 1
            rw [lookupQ_upsert_insert u' pid' s q cs hnone u' pid' s,
                if_pos ⟨rfl, rfl, rfl⟩, hnone]
            simp [qstep, hq]
          · rw [if_neg hs]
            congr 1
            rw [lookupQ_upsert_insert u' pid' s q cs hnone u' pid' s',
                if_neg (fun h => hs h.2.2.symm)]
        · rw [if_neg he, if_neg he,
              lookupQ_upsert_insert u pid s q cs hnone u' pid' s',
              if_neg (fun h => he ⟨h.1, h.2.1⟩)]

/-- Characterization of the outer sync loop: it never fails for an
existing user, and its effect on the per-key view of that user's rows is
`entryFold`; other owners' rows are untouched. -/
theorem syncProducts_char (users : List Nat) (cat : List Product) (u : Nat)
    (hu : users.contains u = true) :
    ∀ (snap : Snapshot) (cs : List CartLine),
      (syncProducts users cat u snap cs).1 = true ∧
      ∀ (u' pid' : Nat) (s' : String),
        lookupQ (syncProducts users cat u snap cs).2 u' pid' s' =
          if u' = u then entryFold cat snap pid' s' (lookupQ cs u' pid' s')
          else lookupQ cs u' pid' s' := by
  intro snap
  induction snap with
  | nil =>
    intro cs
    refine ⟨rfl, ?_⟩
    intro u' pid' s'
    rw [entryFold]
    split <;> rfl
  | cons e rest ih =>
    obtain ⟨pidStr, sizes⟩ := e
    intro cs
    cases hparse : parseId pidStr with
    | none =>
      have hstep : syncProducts users cat u ((pidStr, sizes) :: rest) cs
          = syncProducts users cat u rest cs := by
        simp only [syncProducts, hparse]
      rw [hstep]
      refine ⟨(ih cs).1, ?_⟩
      intro u' pid' s'
      rw [(ih cs).2 u' pid' s']
      simp only [entryFold, hparse]
    | some pid =>
      by_cases hcat : (cat.find? (fun p => p.id == pid)).isSome = true
      · have hsz := syncSizes_char users cat u pid hu hcat sizes cs
        have hstep : syncProducts users cat u ((pidStr, sizes) :: rest) cs
            = syncProducts users cat u rest (syncSizes users cat u pid sizes cs).2 := by
          simp only [syncProducts, hparse, if_pos hcat]
          cases hres : syncSizes users cat u pid sizes cs with
          | mk b cs1 =>
            have : b = true := by
              have := hsz.1; rw [hres] at this; exact this
            subst this
            rfl
        rw [hstep]
        refine ⟨(ih _).1, ?_⟩
        intro u' pid' s'
        rw [(ih _).2 u' pid' s']
        by_cases he : u' = u
        · subst he
          rw [if_pos rfl, if_pos rfl]
          simp only [entryFold, hparse]
          congr 1
          by_cases hpid : pid = pid'
          · subst hpid
            rw [if_pos (by simp [hcat]), hsz.2 u' pid s', if_pos ⟨rfl, rfl⟩]
          · rw [if_neg (by simp [hpid]), hsz.2 u' pid' s',
                if_neg (fun h => hpid h.2.symm)]
        · rw [if_neg he, if_neg he, hsz.2 u' pid' s', if_neg (fun h => he h.1)]
      · have hstep : syncProducts users cat u ((pidStr, sizes) :: rest) cs
            = syncProducts users cat u rest cs := by
          simp only [syncProducts, hparse, if_neg hcat]
        rw [hstep]
        refine ⟨(ih cs).1, ?_⟩
        intro u' pid' s'
        rw [(ih cs).2 u' pid' s']
        by_cases he : u' = u
        · rw [if_pos he, if_pos he]
          simp only [entryFold, hparse]
          congr 1
          by_cases hpid : pid = pid'
          · subst hpid
            rw [if_neg (by simp [hcat])]
          · rw [if_neg (by simp [hpid])]
        · rw [if_neg he, if_neg he]

/-! ### The max-fold algebra of the merge -/

theorem qstep_eq_omax (v : Option Int) (q : Int) (hq : ¬q ≤ 0) :
    qstep v q = omax v q := by
  cases v <;> simp [qstep, omax, hq]

theorem qstep_skip (v : Option Int) (q : Int) (hq : q ≤ 0) :
    qstep v q = v := by
  simp [qstep, hq]

theorem qfold_eq_foldl (size : String) :
    ∀ (sizes : List (String × Int)) (v : Option Int),
      qfold sizes size v = (posQs sizes size).foldl omax v := by
  intro sizes
  induction sizes with
  | nil => intro v; rfl
  | cons sq rest ih =>
    obtain ⟨s, q⟩ := sq
    intro v
    rw [qfold]
    by_cases hs : s = size
    · subst hs
      rw [if_pos rfl]
      by_cases hq : q ≤ 0
      · have hq' : ¬(0 : Int) < q := not_lt.2 hq
        have hfil : posQs ((s, q) :: rest) s = posQs rest s := by
          simp [posQs, List.filter_cons, hq']
        rw [hfil, qstep_skip v q hq]
        exact ih v
      · have hq' : (0 : Int) < q := not_le.1 hq
        have hfil : posQs ((s, q) :: rest) s = q :: posQs rest s := by
          simp [posQs, List.filter_cons, hq']
        rw [hfil, qstep_eq_omax v q hq, List.foldl_cons]
        exact ih (omax v q)
    · have hfil : posQs ((s, q) :: rest) size = posQs rest size := by
        simp [posQs, List.filter_cons, hs]
      rw [hfil, if_neg hs]
      exact ih v

theorem entryFold_eq_foldl (cat : List Product) (pid : Nat) (size : String) :
    ∀ (snap : Snapshot) (v : Option Int),
      entryFold cat snap pid size v = (snapQs cat snap pid size).foldl omax v := by
  intro snap
  induction snap with
  | nil => intro v; rfl
  | cons e rest ih =>
    obtain ⟨pidStr, sizes⟩ := e
    intro v
    cases hparse : parseId pidStr with
    | none =>
      simp only [entryFold, snapQs, hparse, List.nil_append]
      exact ih v
    | some pid' =>
      simp only [entryFold, snapQs, hparse, List.foldl_append]
      by_cases hc : (pid' == pid && (cat.find? (fun p => p.id == pid)).isSome) = true
      · rw [if_pos hc, if_pos hc, qfold_eq_foldl]
        exact ih _
      · rw [if_neg hc, if_neg hc, List.foldl_nil]
        exact ih v

theorem omax_swap (v : Option Int) (a b : Int) :
    omax (omax v a) b = omax (omax v b) a := by
  cases v with
  | none => simp [omax, max_comm]
  | some x => simp [omax, max_assoc, max_comm a b]

theorem foldl_omax_shift :
    ∀ (L : List Int) (v : Option Int) (a : Int),
      L.foldl omax (omax v a) = omax (L.foldl omax v) a := by
  intro L
  induction L with
  | nil => intro v a; rfl
  | cons b L ih =>
    intro v a
    rw [List.foldl_cons, List.foldl_cons, omax_swap, ih]

theorem foldl_omax_comm :
    ∀ (L1 L2 : List Int) (v : Option Int),
      L2.foldl omax (L1.foldl omax v) = L1.foldl omax (L2.foldl omax v) := by
  intro L1
  induction L1 with
  | nil => intro L2 v; rfl
  | cons a L1 ih =>
    intro L2 v
    rw [List.foldl_cons, List.foldl_cons, ← foldl_omax_shift L2 v a]
    exact ih L2 (omax v a)

theorem foldl_omax_ge_seed :
    ∀ (L : List Int) (v : Option Int) (a : Int),
      ∃ x, L.foldl omax (omax v a) = some x ∧ a ≤ x := by
  intro L
  induction L with
  | nil =>
    intro v a
    cases v with
    | none => exact ⟨a, rfl, le_refl a⟩
    | some z => exact ⟨max z a, rfl, le_max_right z a⟩
  | cons b L ih =>
    intro v a
    rw [List.foldl_cons, omax_swap]
    rcases ih (omax v b) a with ⟨x, hx, hax⟩
    exact ⟨x, hx, hax⟩

theorem foldl_omax_mem_le (L : List Int) (v : Option Int) (q : Int) (hq : q ∈ L) :
    ∃ x, L.foldl omax v = some x ∧ q ≤ x := by
  rcases List.append_of_mem hq with ⟨L1, L2, rfl⟩
  rw [List.foldl_append, List.foldl_cons]
  exact foldl_omax_ge_seed L2 (L1.foldl omax v) q

theorem foldl_omax_absorb :
    ∀ (L : List Int) (w : Option Int),
      (∀ q ∈ L, ∃ x, w = some x ∧ q ≤ x) → L.foldl omax w = w := by
  intro L
  induction L with
  | nil => intro w _; rfl
  | cons a L ih =>
    intro w h
    rcases h a (List.mem_cons_self a L) with ⟨x, hw, hax⟩
    subst hw
    have hstep : omax (some x) a = some x := by
      simp [omax, max_eq_left hax]
    rw [List.foldl_cons, hstep]
    exact ih (some x) (fun q hq => h q (List.mem_cons_of_mem a hq))

theorem foldl_omax_idem (L : List Int) (v : Option Int) :
    L.foldl omax (L.foldl omax v) = L.foldl omax v := by
  apply foldl_omax_absorb
  intro q hq
  exact foldl_omax_mem_le L v q hq

/-! ### Claim theorems: sync merge (C4, C5) -/

theorem qfold_single (size : String) (q : Int) (v : Option Int) :
    qfold [(size, q)] size v = qstep v q := by
  rw [qfold, if_pos rfl, qfold]

/-- Claim C4: for every sync merge of an incoming entry (product, size,
quantity q_new > 0): if a stored cart line for (owner, product, size)
exists with quantity q_old, its post-merge quantity equals
max(q_old, q_new) — never less than either — and if no such line
exists, a new line with quantity q_new is inserted. -/
theorem syncCart_mergeUpsert_max (users : List Nat) (cat : List Product)
    (u pid : Nat) (size : String) (q : Int) (cs : List CartLine)
    (hq : 0 < q) (hu : users.contains u = true)
    (hp : (cat.find? (fun p => p.id == pid)).isSome = true) :
    (syncSizes users cat u pid [(size, q)] cs).1 = true
    ∧ (∀ qold, lookupQ cs u pid size = some qold →
        lookupQ (syncSizes users cat u pid [(size, q)] cs).2 u pid size
            = some (max qold q)
          ∧ qold ≤ max qold q ∧ q ≤ max qold q)
    ∧ (lookupQ cs u pid size = none →
        lookupQ (syncSizes users cat u pid [(size, q)] cs).2 u pid size = some q) := by
  have hchar := syncSizes_char users cat u pid hu hp [(size, q)] cs
  refine ⟨hchar.1, ?_, ?_⟩
  · intro qold hold
    refine ⟨?_, le_max_left qold q, le_max_right qold q⟩
    rw [hchar.2 u pid size, if_pos ⟨rfl, rfl⟩, qfold_single, hold,
        qstep_eq_omax _ _ (not_le.2 hq)]
    rfl
  · intro hnone
    rw [hchar.2 u pid size, if_pos ⟨rfl, rfl⟩, qfold_single, hnone,
        qstep_eq_omax _ _ (not_le.2 hq)]
    rfl

theorem syncCart_mergeUpsert_max_witness :
    lookupQ (syncSizes [1] [⟨2, "P", 5, true⟩] 1 2 [("M", 3)]
        [⟨1, 2, "M", 1⟩]).2 1 2 "M" = some (max 1 3)
    ∧ lookupQ (syncSizes [1] [⟨2, "P", 5, true⟩] 1 2 [("L", 4)]
        [⟨1, 2, "M", 1⟩]).2 1 2 "L" = some 4 :=
  ⟨((syncCart_mergeUpsert_max [1] [⟨2, "P", 5, true⟩] 1 2 "M" 3 [⟨1, 2, "M", 1⟩]
      (by decide) (by decide) (by decide)).2.1 1 (by decide)).1,
   (syncCart_mergeUpsert_max [1] [⟨2, "P", 5, true⟩] 1 2 "L" 4 [⟨1, 2, "M", 1⟩]
      (by decide) (by decide) (by decide)).2.2 (by decide)⟩

/-- Claim C5: the sync merge is idempotent and commutative on the
stored cart state (the per-key quantity view of the cart table):
merging a snapshot twice equals merging it once, and merging S1 then
S2 equals merging S2 then S1. -/
theorem syncCart_merge_idempotent_commutative (users : List Nat) (cat : List Product)
    (u : Nat) (S S1 S2 : Snapshot) (cs : List CartLine)
    (hu : users.contains u = true) :
    (∀ (u' pid' : Nat) (s' : String),
       lookupQ (syncProducts users cat u S (syncProducts users cat u S cs).2).2 u' pid' s'
         = lookupQ (syncProducts users cat u S cs).2 u' pid' s')
    ∧ (∀ (u' pid' : Nat) (s' : String),
       lookupQ (syncProducts users cat u S2 (syncProducts users cat u S1 cs).2).2 u' pid' s'
         = lookupQ (syncProducts users cat u S1 (syncProducts users cat u S2 cs).2).2 u' pid' s') := by
  have hc := syncProducts_char users cat u hu
  constructor
  · intro u' pid' s'
    rw [(hc S _).2 u' pid' s', (hc S cs).2 u' pid' s']
    by_cases he : u' = u
    · simp only [if_pos he, entryFold_eq_foldl]
      exact foldl_omax_idem _ _
    · rw [if_neg he, if_neg he]
  · intro u' pid' s'
    rw [(hc S2 (syncProducts users cat u S1 cs).2).2 u' pid' s',
        (hc S1 cs).2 u' pid' s',
        (hc S1 (syncProducts users cat u S2 cs).2).2 u' pid' s',
        (hc S2 cs).2 u' pid' s']
    by_cases he : u' = u
    · simp only [if_pos he, entryFold_eq_foldl]
      exact foldl_omax_comm _ _ _
    · rw [if_neg he, if_neg he, if_neg he, if_neg he]

theorem syncCart_merge_idempotent_commutative_witness :
    lookupQ (syncProducts [1] [⟨1, "P", 5, true⟩] 1 [("1", [("M", 2)])]
        (syncProducts [1] [⟨1, "P", 5, true⟩] 1 [("1", [("M", 2)])] []).2).2 1 1 "M"
      = lookupQ (syncProducts [1] [⟨1, "P", 5, true⟩] 1 [("1", [("M", 2)])] []).2 1 1 "M" :=
  (syncCart_merge_idempotent_commutative [1] [⟨1, "P", 5, true⟩] 1
    [("1", [("M", 2)])] [] [] [] (by decide)).1 1 1 "M"

/-! ### Dropping invalid snapshot entries (C6) -/

theorem syncSizes_posFilter (users : List Nat) (cat : List Product) (u pid : Nat) :
    ∀ (sizes : List (String × Int)) (cs : List CartLine),
      syncSizes users cat u pid sizes cs
        = syncSizes users cat u pid
            (sizes.filter (fun sq => decide (0 < sq.2))) cs := by
  intro sizes
  induction sizes with
  | nil => intro cs; rfl
  | cons sq rest ih =>
    obtain ⟨s, q⟩ := sq
    intro cs
    by_cases hq : q ≤ 0
    · have hq' : ¬(0 : Int) < q := not_lt.2 hq
      have hfil : ((s, q) :: rest).filter (fun sq => decide (0 < sq.2))
          = rest.filter (fun sq => decide (0 < sq.2)) := by
        simp [List.filter_cons, hq']
      rw [hfil]
      simp only [syncSizes, if_pos hq]
      exact ih cs
    · have hq' : (0 : Int) < q := not_le.1 hq
      have hfil : ((s, q) :: rest).filter (fun sq => decide (0 < sq.2))
          = (s, q) :: rest.filter (fun sq => decide (0 < sq.2)) := by
        simp [List.filter_cons, hq']
      rw [hfil]
      simp only [syncSizes, if_neg hq]
      by_cases hfind : (cs.find? (lineKey u pid s)).isSome = true
      · simp only [if_pos hfind]
        exact ih _
      · simp only [if_neg hfind]
        cases hins : insertCartRow users cat ⟨u, pid, s, q⟩ cs with
        | some cs1 => simp only [hins]; exact ih cs1
        | none => simp only [hins]

theorem syncProducts_validSnapshot (users : List Nat) (cat : List Product) (u : Nat) :
    ∀ (snap : Snapshot) (cs : List CartLine),
      syncProducts users cat u snap cs
        = syncProducts users cat u (validSnapshot cat snap) cs := by
  intro snap
  induction snap with
  | nil => intro cs; rfl
  | cons e rest ih =>
    obtain ⟨pidStr, sizes⟩ := e
    intro cs
    cases hparse : parseId pidStr with
    | none =>
      have hfil : validSnapshot cat ((pidStr, sizes) :: rest) = validSnapshot cat rest := by
        simp [validSnapshot, List.filter_cons, hparse]
      rw [hfil]
      simp only [syncProducts, hparse]
      exact ih cs
    | some pid =>
      by_cases hcat : (cat.find? (fun p => p.id == pid)).isSome = true
      · have hfil : validSnapshot cat ((pidStr, sizes) :: rest)
            = (pidStr, sizes.filter (fun sq => decide (0 < sq.2)))
                :: validSnapshot cat rest := by
          simp [validSnapshot, List.filter_cons, hparse, hcat]
        rw [hfil]
        simp only [syncProducts, hparse, if_pos hcat]
        rw [← syncSizes_posFilter]
        cases hres : syncSizes users cat u pid sizes cs with
        | mk b cs1 =>
          cases b with
          | true => simp only; exact ih cs1
          | false => rfl
      · have hfil : validSnapshot cat ((pidStr, sizes) :: rest) = validSnapshot cat rest := by
          simp [validSnapshot, List.filter_cons, hparse, hcat]
        rw [hfil]
        simp only [syncProducts, hparse, if_neg hcat]
        exact ih cs

theorem stageItems_validSnapshot (cat : List Product) :
    ∀ snap : Snapshot, stageItems cat snap = stageItems cat (validSnapshot cat snap) := by
  intro snap
  induction snap with
  | nil => rfl
  | cons e rest ih =>
    obtain ⟨pidStr, sizes⟩ := e
    cases hparse : parseId pidStr with
    | none =>
      have hfil : validSnapshot cat ((pidStr, sizes) :: rest) = validSnapshot cat rest := by
        simp [validSnapshot, List.filter_cons, hparse]
      rw [hfil]
      simp only [stageItems, hparse]
      exact ih
    | some pid =>
      cases hcat : cat.find? (fun p => p.id == pid) with
      | none =>
        have hfil : validSnapshot cat ((pidStr, sizes) :: rest) = validSnapshot cat rest := by
          simp [validSnapshot, List.filter_cons, hparse, hcat]
        rw [hfil]
        simp only [stageItems, hparse, hcat]
        exact ih
      | some prod =>
        have hfil : validSnapshot cat ((pidStr, sizes) :: rest)
            = (pidStr, sizes.filter (fun sq => decide (0 < sq.2)))
                :: validSnapshot cat rest := by
          simp [validSnapshot, List.filter_cons, hparse, hcat]
        rw [hfil]
        simp only [stageItems, hparse, hcat]
        have hff : (sizes.filter (fun sq => decide (0 < sq.2))).filter
            (fun sq => decide (0 < sq.2)) = sizes.filter (fun sq => decide (0 < sq.2)) := by
          simp [List.filter_filter]
        rw [hff, ← ih]

theorem saveSizes_posFilter (users : List Nat) (cat : List Product) (u pid : Nat) :
    ∀ (sizes : List (String × Int)) (cs : List CartLine),
      saveSizes users cat u pid sizes cs
        = saveSizes users cat u pid
            (sizes.filter (fun sq => decide (0 < sq.2))) cs := by
  intro sizes
  induction sizes with
  | nil => intro cs; rfl
  | cons sq rest ih =>
    obtain ⟨s, q⟩ := sq
    intro cs
    by_cases hq : (0 : Int) < q
    · have hfil : ((s, q) :: rest).filter (fun sq => decide (0 < sq.2))
          = (s, q) :: rest.filter (fun sq => decide (0 < sq.2)) := by
        simp [List.filter_cons, hq]
      rw [hfil]
      simp only [saveSizes, if_pos hq]
      cases hins : insertCartRow users cat ⟨u, pid, s, q⟩ cs with
      | some cs1 => simp only [hins]; exact ih cs1
      | none => simp only [hins]
    · have hfil : ((s, q) :: rest).filter (fun sq => decide (0 < sq.2))
          = rest.filter (fun sq => decide (0 < sq.2)) := by
        simp [List.filter_cons, hq]
      rw [hfil]
      simp only [saveSizes, if_neg hq]
      exact ih cs

theorem saveItems_parsedSnapshot (users : List Nat) (cat : List Product) (u : Nat) :
    ∀ (snap : Snapshot) (cs : List CartLine),
      saveItems users cat u snap cs
        = saveItems users cat u (parsedSnapshot snap) cs := by
  intro snap
  induction snap with
  | nil => intro cs; rfl
  | cons e rest ih =>
    obtain ⟨pidStr, sizes⟩ := e
    intro cs
    cases hparse : parseId pidStr with
    | none =>
      have hfil : parsedSnapshot ((pidStr, sizes) :: rest) = parsedSnapshot rest := by
        simp [parsedSnapshot, List.filter_cons, hparse]
      rw [hfil]
      simp only [saveItems, hparse]
      exact ih cs
    | some pid =>
      have hfil : parsedSnapshot ((pidStr, sizes) :: rest)
          = (pidStr, sizes.filter (fun sq => decide (0 < sq.2)))
              :: parsedSnapshot rest := by
        simp [parsedSnapshot, List.filter_cons, hparse]
      rw [hfil]
      simp only [saveItems, hparse]
      rw [← saveSizes_posFilter]
      cases hres : saveSizes users cat u pid sizes cs with
      | mk b cs1 =>
        cases b with
        | true => simp only; exact ih cs1
        | false => rfl

theorem saveSizes_unknown_false (users : List Nat) (cat : List Product) (u pid : Nat)
    (hfk : cat.find? (fun p => p.id == pid) = none) :
    ∀ (sizes : List (String × Int)) (cs : List CartLine),
      (∃ sq ∈ sizes, (0 : Int) < sq.2) →
      (saveSizes users cat u pid sizes cs).1 = false := by
  intro sizes
  induction sizes with
  | nil =>
    intro cs h
    simp at h
  | cons sq0 rest ih =>
    obtain ⟨s, q⟩ := sq0
    intro cs h
    by_cases hq : (0 : Int) < q
    · have hins : insertCartRow users cat ⟨u, pid, s, q⟩ cs = none := by
        simp [insertCartRow, hfk]
      simp only [saveSizes, if_pos hq, hins]
    · rcases h with ⟨sq, hmem, hpos⟩
      rcases List.mem_cons.1 hmem with heq | hmem'
      · exfalso
        rw [heq] at hpos
        exact hq hpos
      · simp only [saveSizes, if_neg hq]
        exact ih cs ⟨sq, hmem', hpos⟩

theorem saveItems_unknown_false (users : List Nat) (cat : List Product) (u : Nat) :
    ∀ (snap : Snapshot) (cs : List CartLine),
      (∃ pidStr sizes pid, (pidStr, sizes) ∈ snap ∧ parseId pidStr = some pid
          ∧ cat.find? (fun p => p.id == pid) = none ∧ ∃ sq ∈ sizes, (0 : Int) < sq.2) →
      (saveItems users cat u snap cs).1 = false := by
  intro snap
  induction snap with
  | nil =>
    intro cs h
    rcases h with ⟨_, _, _, hmem, _⟩
    simp at hmem
  | cons e rest ih =>
    obtain ⟨pidStr0, sizes0⟩ := e
    intro cs h
    rcases h with ⟨pidStr, sizes, pid, hmem, hparse, hfk, hpos⟩
    rcases List.mem_cons.1 hmem with heq | hmem'
    · cases heq
      simp only [saveItems, hparse]
      cases hres : saveSizes users cat u pid sizes0 cs with
      | mk b cs1 =>
        have hb : b = false := by
          have := saveSizes_unknown_false users cat u pid hfk sizes0 cs hpos
          rw [hres] at this
          exact this
        subst hb
        simp only [hres]
    · cases hparse0 : parseId pidStr0 with
      | none =>
        simp only [saveItems, hparse0]
        exact ih cs ⟨pidStr, sizes, pid, hmem', hparse, hfk, hpos⟩
      | some pid0 =>
        simp only [saveItems, hparse0]
        cases hres : saveSizes users cat u pid0 sizes0 cs with
        | mk b cs1 =>
          cases b with
          | true =>
            simp only [hres]
            exact ih cs1 ⟨pidStr, sizes, pid, hmem', hparse, hfk, hpos⟩
          | false => simp only [hres]

/-- Claim C6 counterexample: a save snapshot holding an unknown (but
parseable) product id 999 together with a valid entry for product 1
makes `saveCart` fail with a storage error (the cart insert violates
the catalog foreign key), and the valid entry is not stored either —
the cart was cleared and is left empty. -/
theorem saveCart_unknown_product_fails :
    saveCart (some 1) none (some [("999", [("M", 2)]), ("1", [("M", 1)])])
      ⟨[1], [⟨1, "Shirt", 50, true⟩], [], [], [], 1⟩
    = (.storageError, ⟨[1], [⟨1, "Shirt", 50, true⟩], [], [], [], 1⟩) := by
  decide

/-- Claim C6 (amended): for sync and checkout, entries with an unknown
or unparseable product id or a non-positive quantity are silently
dropped — merging or staging a snapshot equals merging or staging its
filtered valid part, and sync succeeds for an existing user; the save
path drops unparseable ids and non-positive quantities, but passes a
parseable unknown product id to the store, whose foreign key makes the
whole save fail. -/
theorem cart_ops_invalid_entry_tolerance (users : List Nat) (cat : List Product) (u : Nat) :
    (∀ (snap : Snapshot) (cs : List CartLine),
        syncProducts users cat u snap cs
          = syncProducts users cat u (validSnapshot cat snap) cs)
    ∧ (∀ snap : Snapshot, stageItems cat snap = stageItems cat (validSnapshot cat snap))
    ∧ (∀ (snap : Snapshot) (cs : List CartLine),
        saveItems users cat u snap cs
          = saveItems users cat u (parsedSnapshot snap) cs)
    ∧ (∀ (snap : Snapshot) (cs : List CartLine),
        (∃ pidStr sizes pid, (pidStr, sizes) ∈ snap ∧ parseId pidStr = some pid
            ∧ cat.find? (fun p => p.id == pid) = none ∧ ∃ sq ∈ sizes, (0 : Int) < sq.2) →
        (saveItems users cat u snap cs).1 = false)
    ∧ (∀ (snap : Snapshot) (cs : List CartLine), users.contains u = true →
        (syncProducts users cat u snap cs).1 = true) :=
  ⟨syncProducts_validSnapshot users cat u,
   stageItems_validSnapshot cat,
   saveItems_parsedSnapshot users cat u,
   saveItems_unknown_false users cat u,
   fun snap cs hu => (syncProducts_char users cat u hu snap cs).1⟩

theorem cart_ops_invalid_entry_tolerance_witness :
    (saveItems [1] [⟨1, "Shirt", 50, true⟩] 1
        [("999", [("M", 2)]), ("1", [("M", 1)])] []).1 = false
    ∧ (syncProducts [1] [⟨1, "Shirt", 50, true⟩] 1 [("9", [("M", 1)])] []).1 = true :=
  ⟨(cart_ops_invalid_entry_tolerance [1] [⟨1, "Shirt", 50, true⟩] 1).2.2.2.1
      [("999", [("M", 2)]), ("1", [("M", 1)])] []
      ⟨"999", [("M", 2)], 999, by decide, by decide, by decide, ("M", 2), by decide, by decide⟩,
   (cart_ops_invalid_entry_tolerance [1] [⟨1, "Shirt", 50, true⟩] 1).2.2.2.2
      [("9", [("M", 1)])] [] (by decide)⟩

/-! ### Checkout write atomicity (C1) -/

/-- Claim C1 (code bug): `createOrder` inserts the order header and the
order items in separate writes with no transaction.  On the schedule
where the order-items inserts throw after the header insert committed,
the handler answers 500 and the database is left with a persisted order
(id 1) that has zero order lines. -/
theorem createOrder_header_without_lines :
    (createOrder ⟨none, none, some [("1", [("M", 2)])],
        some ⟨"a", "b", "c", "d", "e"⟩, some ⟨"John", "j@x.com", "024"⟩⟩ .itemsFail
      ⟨[], [⟨1, "Shirt", 50, true⟩], [], [], [], 1⟩).1 = .storageError
    ∧ ((createOrder ⟨none, none, some [("1", [("M", 2)])],
        some ⟨"a", "b", "c", "d", "e"⟩, some ⟨"John", "j@x.com", "024"⟩⟩ .itemsFail
      ⟨[], [⟨1, "Shirt", 50, true⟩], [], [], [], 1⟩).2.orders.map (fun o => o.id)) = [1]
    ∧ (createOrder ⟨none, none, some [("1", [("M", 2)])],
        some ⟨"a", "b", "c", "d", "e"⟩, some ⟨"John", "j@x.com", "024"⟩⟩ .itemsFail
      ⟨[], [⟨1, "Shirt", 50, true⟩], [], [], [], 1⟩).2.orderItems = [] := by
  decide

/-! ### Order status transitions (C7) -/

/-- Claim C7 counterexample: the status-update endpoint performs no
transition check — an order in the terminal status "delivered" is
updated back to "pending" and the call succeeds. -/
theorem updateOrderStatus_terminal_not_enforced :
    updateOrderStatus (some "1") (some "pending")
      ⟨[1], [], [], [⟨1, some 1, 10, "delivered", ⟨"a", "b", "c", "d", "e"⟩, none, "paid"⟩], [], 2⟩
    = (.updated 1 "pending",
       ⟨[1], [], [], [⟨1, some 1, 10, "pending", ⟨"a", "b", "c", "d", "e"⟩, none, "paid"⟩], [], 2⟩) := by
  decide

/-- Claim C7 (amended): `updateOrderStatus` accepts any target status in
{pending, processing, shipped, delivered, cancelled} for any existing
order, regardless of the order's current status (including out of the
terminal statuses delivered and cancelled); the spec's transition
relation is not enforced by the code. -/
theorem updateOrderStatus_any_valid_status (db : DB) (s target : String) (oid : Nat)
    (h1 : parseId s = some oid)
    (h2 : validStatuses.contains target = true)
    (h3 : (db.orders.find? (fun o => o.id == oid)).isSome = true) :
    (updateOrderStatus (some s) (some target) db).1 = .updated oid target
    ∧ ∀ o ∈ (updateOrderStatus (some s) (some target) db).2.orders,
        o.id = oid → o.status = target := by
  have hs : s ≠ "" := by
    intro he
    have hne : parseId "" = none := by decide
    rw [he, hne] at h1
    exact Option.noConfusion h1
  have htr : truthyStr (some s) = true := by simp [truthyStr, hs]
  have ht0 : target ≠ "" := by
    intro he
    rw [he] at h2
    exact absurd h2 (by decide)
  have htr2 : truthyStr (some target) = true := by simp [truthyStr, ht0]
  have hrun : updateOrderStatus (some s) (some target) db
      = (.updated oid target,
         ⟨db.users, db.products, db.cart,
          db.orders.map (fun o => if o.id == oid then { o with status := target } else o),
          db.orderItems, db.nextOrderId⟩) := by
    have hmem : target ∈ validStatuses := by simpa using h2
    simp [updateOrderStatus, strVal, htr, htr2, h1, h3, hmem]
  rw [hrun]
  refine ⟨rfl, ?_⟩
  intro o ho hid
  rcases List.mem_map.1 ho with ⟨o0, ho0, heq⟩
  by_cases hk : (o0.id == oid) = true
  · rw [if_pos hk] at heq
    rw [← heq]
  · rw [if_neg hk] at heq
    exfalso
    rw [← heq] at hid
    exact hk (by simp [hid])

theorem updateOrderStatus_any_valid_status_witness :
    (updateOrderStatus (some "7") (some "processing")
      ⟨[1], [], [], [⟨7, none, 10, "cancelled", ⟨"a", "b", "c", "d", "e"⟩,
        some ⟨"G", "g@x.com", "020"⟩, "pending"⟩], [], 8⟩).1 = .updated 7 "processing" :=
  (updateOrderStatus_any_valid_status
    ⟨[1], [], [], [⟨7, none, 10, "cancelled", ⟨"a", "b", "c", "d", "e"⟩,
      some ⟨"G", "g@x.com", "020"⟩, "pending"⟩], [], 8⟩
    "7" "processing" 7 (by decide) (by decide) (by decide)).1

/-! ### Cart endpoint authentication (C10) -/

theorem truthyId_resolve_false (body auth : Option Nat) :
    truthyId (resolveUserId body auth) = false
      ↔ (truthyId body = false ∧ truthyId auth = false) := by
  cases hb : truthyId body <;> simp [resolveUserId, hb]

/-- Claim C10 counterexample: a request body carrying `userId: 0` (a
falsy value, but a present field) with no authenticated identity is
answered with AuthenticationRequired, although the claim's
"if and only if both absent" predicts the operation would proceed with
the body-supplied owner. -/
theorem cartAuth_zero_userId :
    (getUserCart (some 0) none ⟨[1], [], [], [], [], 1⟩).1 = .authRequired
    ∧ ¬(((getUserCart (some 0) none ⟨[1], [], [], [], [], 1⟩).1 = .authRequired)
        ↔ ((some 0 : Option Nat) = none ∧ (none : Option Nat) = none)) := by
  decide

/-- Claim C10 (amended): for each cart operation, AuthenticationRequired
is returned iff the effective identity `body.userId || auth.id` is
falsy — both fields absent or carrying the falsy value 0; and a
non-zero userId supplied in the body alone is accepted as the owner
identity: the operation behaves exactly as if that user were
authenticated. -/
theorem cartAuth_required_iff_falsy (body auth : Option Nat) (S : Option Snapshot) (db : DB) :
    ((getUserCart body auth db).1 = .authRequired
        ↔ (truthyId body = false ∧ truthyId auth = false))
    ∧ ((syncCart body auth S db).1 = .authRequired
        ↔ (truthyId body = false ∧ truthyId auth = false))
    ∧ ((saveCart body auth S db).1 = .authRequired
        ↔ (truthyId body = false ∧ truthyId auth = false))
    ∧ ((clearCart body auth db).1 = .authRequired
        ↔ (truthyId body = false ∧ truthyId auth = false))
    ∧ (∀ n : Nat, n ≠ 0 →
        getUserCart (some n) none db = getUserCart none (some n) db
        ∧ syncCart (some n) none S db = syncCart none (some n) S db
        ∧ saveCart (some n) none S db = saveCart none (some n) S db
        ∧ clearCart (some n) none db = clearCart none (some n) db) := by
  have hiff := truthyId_resolve_false body auth
  have hget : (getUserCart body auth db).1 = .authRequired
      ↔ truthyId (resolveUserId body auth) = false := by
    cases ht : truthyId (resolveUserId body auth) with
    | false => simp [getUserCart, ht]
    | true => simp [getUserCart, ht]
  have hclear : (clearCart body auth db).1 = .authRequired
      ↔ truthyId (resolveUserId body auth) = false := by
    cases ht : truthyId (resolveUserId body auth) with
    | false => simp [clearCart, ht]
    | true => simp [clearCart, ht]
  have hsync : (syncCart body auth S db).1 = .authRequired
      ↔ truthyId (resolveUserId body auth) = false := by
    cases ht : truthyId (resolveUserId body auth) with
    | false => simp [syncCart, ht]
    | true =>
      cases S with
      | none => simp [syncCart, ht]
      | some sn =>
        cases hres : syncProducts db.users db.products
            (idVal (resolveUserId body auth)) sn db.cart with
        | mk b cs => cases b <;> simp [syncCart, ht, hres]
  have hsave : (saveCart body auth S db).1 = .authRequired
      ↔ truthyId (resolveUserId body auth) = false := by
    cases ht : truthyId (resolveUserId body auth) with
    | false => simp [saveCart, ht]
    | true =>
      cases S with
      | none => simp [saveCart, ht]
      | some sn =>
        cases hres : saveItems db.users db.products
            (idVal (resolveUserId body auth)) sn
            (db.cart.filter (fun l => l.userId != idVal (resolveUserId body auth))) with
        | mk b cs => cases b <;> simp [saveCart, ht, hres]
  refine ⟨hget.trans hiff, hsync.trans hiff, hsave.trans hiff, hclear.trans hiff, ?_⟩
  · intro n hn
    have h1 : resolveUserId (some n) none = some n := by
      simp [resolveUserId, truthyId, hn]
    have h2 : resolveUserId none (some n) = some n := by
      simp [resolveUserId, truthyId]
    refine ⟨?_, ?_, ?_, ?_⟩ <;>
      simp only [getUserCart, syncCart, saveCart, clearCart, h1, h2]

theorem cartAuth_required_iff_falsy_witness :
    ((getUserCart (some 0) (some 0) ⟨[1], [], [], [], [], 1⟩).1 = .authRequired
      ↔ (truthyId (some 0) = false ∧ truthyId (some 0) = false))
    ∧ clearCart (some 5) none ⟨[1], [], [], [], [], 1⟩
        = clearCart none (some 5) ⟨[1], [], [], [], [], 1⟩ :=
  ⟨(cartAuth_required_iff_falsy (some 0) (some 0) none ⟨[1], [], [], [], [], 1⟩).1,
   ((cartAuth_required_iff_falsy (some 5) none none ⟨[1], [], [], [], [], 1⟩).2.2.2.2
      5 (by decide)).2.2.2⟩

/-! ### The checkout validation phase (C2, C3, C8, C9) -/

theorem checkoutPlan_guestRequired (req : OrderReq) (db : DB)
    (h : (!truthyId (resolveUserId req.bodyUserId req.authUserId)
        && req.guestInfo.isNone) = true) :
    checkoutPlan req db = .error .guestRequired := by
  simp only [checkoutPlan]
  rw [if_pos h]

theorem checkoutPlan_guestIncomplete (req : OrderReq) (db : DB)
    (h2 : guestIncomplete req.guestInfo = true) :
    checkoutPlan req db = .error .guestIncomplete := by
  have h1 : (!truthyId (resolveUserId req.bodyUserId req.authUserId)
      && req.guestInfo.isNone) = false := by
    cases hg : req.guestInfo with
    | none => rw [hg] at h2; exact absurd h2 (by simp [guestIncomplete])
    | some g => simp [hg]
  simp only [checkoutPlan]
  rw [if_neg (by simp [h1]), if_pos h2]

theorem checkoutPlan_invalidCart (req : OrderReq) (db : DB)
    (h1 : (!truthyId (resolveUserId req.bodyUserId req.authUserId)
        && req.guestInfo.isNone) = false)
    (h2 : guestIncomplete req.guestInfo = false)
    (h3 : req.cartItems = none) :
    checkoutPlan req db = .error .invalidCart := by
  simp only [checkoutPlan, h3]
  rw [if_neg (by simp [h1]), if_neg (by simp [h2])]

theorem checkoutPlan_shippingRequired (req : OrderReq) (db : DB) (items : Snapshot)
    (h1 : (!truthyId (resolveUserId req.bodyUserId req.authUserId)
        && req.guestInfo.isNone) = false)
    (h2 : guestIncomplete req.guestInfo = false)
    (h3 : req.cartItems = some items)
    (h4 : req.shippingAddress = none) :
    checkoutPlan req db = .error .shippingRequired := by
  simp only [checkoutPlan, h3, h4]
  rw [if_neg (by simp [h1]), if_neg (by simp [h2])]

theorem checkoutPlan_outOfStock (req : OrderReq) (db : DB) (items : Snapshot)
    (addr : Address) (pname : String)
    (h1 : (!truthyId (resolveUserId req.bodyUserId req.authUserId)
        && req.guestInfo.isNone) = false)
    (h2 : guestIncomplete req.guestInfo = false)
    (h3 : req.cartItems = some items)
    (h4 : req.shippingAddress = some addr)
    (h5 : stageItems db.products items = .error pname) :
    checkoutPlan req db = .error (.outOfStock pname) := by
  simp only [checkoutPlan, h3, h4, h5]
  rw [if_neg (by simp [h1]), if_neg (by simp [h2])]

theorem checkoutPlan_ok_facts (req : OrderReq) (db : DB) (uid : Option Nat)
    (g : Option GuestInfo) (addr : Address) (staged : List StagedItem)
    (h : checkoutPlan req db = .ok (uid, g, addr, staged)) :
    uid = resolveUserId req.bodyUserId req.authUserId
    ∧ g = req.guestInfo
    ∧ (!truthyId (resolveUserId req.bodyUserId req.authUserId)
        && req.guestInfo.isNone) = false
    ∧ guestIncomplete req.guestInfo = false := by
  simp only [checkoutPlan] at h
  split at h
  · exact Except.noConfusion h
  rename_i hg1
  split at h
  · exact Except.noConfusion h
  rename_i hg2
  cases hci : req.cartItems with
  | none => simp only [hci] at h; exact Except.noConfusion h
  | some items =>
    simp only [hci] at h
    cases hsa : req.shippingAddress with
    | none => simp only [hsa] at h; exact Except.noConfusion h
    | some addr0 =>
      simp only [hsa] at h
      cases hst : stageItems db.products items with
      | error e => simp only [hst] at h; exact Except.noConfusion h
      | ok staged0 =>
        simp only [hst] at h
        split at h
        · exact Except.noConfusion h
        injection h with h'
        injection h' with e1 h''
        injection h'' with e2 h'''
        injection h''' with e3 e4
        subst e1
        subst e2
        exact ⟨rfl, rfl, Bool.eq_false_iff.2 hg1, Bool.eq_false_iff.2 hg2⟩

theorem checkoutPlan_no_created (req : OrderReq) (db : DB) (r : OrderResp)
    (h : checkoutPlan req db = .error r) :
    ∀ oid, r ≠ OrderResp.created oid := by
  intro oid hr
  subst hr
  simp only [checkoutPlan] at h
  split at h
  · simp at h
  split at h
  · simp at h
  cases hci : req.cartItems with
  | none => simp only [hci] at h; simp at h
  | some items =>
    simp only [hci] at h
    cases hsa : req.shippingAddress with
    | none => simp only [hsa] at h; simp at h
    | some addr0 =>
      simp only [hsa] at h
      cases hst : stageItems db.products items with
      | error e => simp only [hst] at h; simp at h
      | ok staged0 =>
        simp only [hst] at h
        split at h
        · simp at h
        · exact Except.noConfusion h

theorem insertOrder_some_facts (db : DB) (ownerId : Option Nat) (total : Int)
    (addr : Address) (g : Option GuestInfo) (oid : Nat) (db1 : DB)
    (h : insertOrder db ownerId total addr g = some (oid, db1)) :
    oid = db.nextOrderId
    ∧ db1.orders = db.orders
        ++ [⟨db.nextOrderId, ownerId, total, "pending", addr, g, "pending"⟩]
    ∧ db1.cart = db.cart ∧ db1.orderItems = db.orderItems
    ∧ db1.users = db.users ∧ db1.products = db.products := by
  simp only [insertOrder] at h
  split at h
  · injection h with h'
    injection h' with e1 e2
    subst e1
    subst e2
    exact ⟨rfl, rfl, rfl, rfl, rfl, rfl⟩
  · exact Option.noConfusion h

theorem createOrder_created_elim (req : OrderReq) (f : Fault) (db : DB)
    (oid : Nat) (db' : DB)
    (h : createOrder req f db = (.created oid, db')) :
    ∃ uid g addr staged, checkoutPlan req db = .ok (uid, g, addr, staged)
      ∧ persistOrder uid g addr staged f db = (.created oid, db') := by
  cases hcp : checkoutPlan req db with
  | error r =>
    simp only [createOrder, hcp] at h
    have hr : r = .created oid := congrArg Prod.fst h
    exact absurd hr (checkoutPlan_no_created req db r hcp oid)
  | ok t =>
    obtain ⟨uid, g, addr, staged⟩ := t
    refine ⟨uid, g, addr, staged, rfl, ?_⟩
    simp only [createOrder, hcp] at h
    exact h

/-- Claim C9 counterexample: an empty-but-well-formed snapshot `{}`
passes the cart guard; with a shipping address present the checkout
reaches the catalog loop and answers the later empty-cart error, not a
cart validation error, and with the shipping address missing the
shipping failure wins — so "non-empty" is not part of precondition 2
and the claimed first-failure order does not hold. -/
theorem createOrder_empty_snapshot_not_validation :
    (createOrder ⟨some 1, none, some [], some ⟨"a", "b", "c", "d", "e"⟩, none⟩ .ok
      ⟨[1], [], [], [], [], 1⟩).1 = .noValidItems
    ∧ (createOrder ⟨some 1, none, some [], none, none⟩ .ok
      ⟨[1], [], [], [], [], 1⟩).1 = .shippingRequired
    ∧ (createOrder ⟨some 1, none, some [], some ⟨"a", "b", "c", "d", "e"⟩, none⟩ .ok
      ⟨[1], [], [], [], [], 1⟩).1 ≠ .invalidCart := by
  decide

/-- Claim C9 (amended): checkout validates its preconditions in a fixed
order with the first failure winning: (1) a truthy user id or guest
info must be present; (1b) present guest info must have name, email and
phone all non-empty; (2) the cart snapshot must be present and an
object — emptiness is not checked here; (3) a shipping address must be
present.  An empty or all-invalid snapshot is rejected only later by
the empty-cart check after catalog filtering. -/
theorem createOrder_validation_order (req : OrderReq) (f : Fault) (db : DB) :
    ((!truthyId (resolveUserId req.bodyUserId req.authUserId)
        && req.guestInfo.isNone) = true →
      createOrder req f db = (.guestRequired, db))
    ∧ (guestIncomplete req.guestInfo = true →
      createOrder req f db = (.guestIncomplete, db))
    ∧ ((!truthyId (resolveUserId req.bodyUserId req.authUserId)
        && req.guestInfo.isNone) = false →
      guestIncomplete req.guestInfo = false →
      req.cartItems = none →
      createOrder req f db = (.invalidCart, db))
    ∧ (∀ items : Snapshot,
      (!truthyId (resolveUserId req.bodyUserId req.authUserId)
        && req.guestInfo.isNone) = false →
      guestIncomplete req.guestInfo = false →
      req.cartItems = some items →
      req.shippingAddress = none →
      createOrder req f db = (.shippingRequired, db)) := by
  refine ⟨?_, ?_, ?_, ?_⟩
  · intro h
    simp only [createOrder, checkoutPlan_guestRequired req db h]
  · intro h
    simp only [createOrder, checkoutPlan_guestIncomplete req db h]
  · intro h1 h2 h3
    simp only [createOrder, checkoutPlan_invalidCart req db h1 h2 h3]
  · intro items h1 h2 h3 h4
    simp only [createOrder, checkoutPlan_shippingRequired req db items h1 h2 h3 h4]

theorem createOrder_validation_order_witness :
    createOrder ⟨none, none, some [], some ⟨"a", "b", "c", "d", "e"⟩, none⟩ .ok
        ⟨[1], [], [], [], [], 1⟩ = (.guestRequired, ⟨[1], [], [], [], [], 1⟩)
    ∧ createOrder ⟨some 1, none, some [], some ⟨"a", "b", "c", "d", "e"⟩,
        some ⟨"J", "", "024"⟩⟩ .ok ⟨[1], [], [], [], [], 1⟩
        = (.guestIncomplete, ⟨[1], [], [], [], [], 1⟩)
    ∧ createOrder ⟨some 1, none, none, some ⟨"a", "b", "c", "d", "e"⟩, none⟩ .ok
        ⟨[1], [], [], [], [], 1⟩ = (.invalidCart, ⟨[1], [], [], [], [], 1⟩)
    ∧ createOrder ⟨some 1, none, some [("1", [("M", 1)])], none, none⟩ .ok
        ⟨[1], [], [], [], [], 1⟩ = (.shippingRequired, ⟨[1], [], [], [], [], 1⟩) :=
  ⟨(createOrder_validation_order ⟨none, none, some [], some ⟨"a", "b", "c", "d", "e"⟩, none⟩
      .ok ⟨[1], [], [], [], [], 1⟩).1 (by decide),
   (createOrder_validation_order ⟨some 1, none, some [], some ⟨"a", "b", "c", "d", "e"⟩,
      some ⟨"J", "", "024"⟩⟩ .ok ⟨[1], [], [], [], [], 1⟩).2.1 (by decide),
   (createOrder_validation_order ⟨some 1, none, none, some ⟨"a", "b", "c", "d", "e"⟩, none⟩
      .ok ⟨[1], [], [], [], [], 1⟩).2.2.1 (by decide) (by decide) rfl,
   (createOrder_validation_order ⟨some 1, none, some [("1", [("M", 1)])], none, none⟩
      .ok ⟨[1], [], [], [], [], 1⟩).2.2.2 [("1", [("M", 1)])]
      (by decide) (by decide) rfl rfl⟩

theorem persistOrder_orders_sub (uid : Option Nat) (g : Option GuestInfo) (addr : Address)
    (staged : List StagedItem) (f : Fault) (db : DB) :
    ∀ o ∈ (persistOrder uid g addr staged f db).2.orders,
      o ∈ db.orders
      ∨ (o.userId = (if truthyId uid then uid else none) ∧ o.guestInfo = g) := by
  intro o ho
  simp only [persistOrder] at ho
  cases hins : insertOrder db (if truthyId uid then uid else none)
      (stagedTotal staged) addr g with
  | none => simp only [hins] at ho; exact Or.inl ho
  | some pr =>
    obtain ⟨oid, db1⟩ := pr
    simp only [hins] at ho
    have hb : o ∈ db1.orders := by
      by_cases hf1 : (f == Fault.itemsFail) = true
      · rw [if_pos hf1] at ho; exact ho
      · rw [if_neg hf1] at ho
        by_cases ht : truthyId uid = true
        · rw [if_pos ht] at ho
          by_cases hf2 : (f == Fault.clearFail) = true
          · rw [if_pos hf2] at ho; exact ho
          · rw [if_neg hf2] at ho; exact ho
        · rw [if_neg ht] at ho; exact ho
    rcases insertOrder_some_facts db _ _ addr g oid db1 hins with ⟨_, hord, _⟩
    rw [hord] at hb
    rcases List.mem_append.1 hb with hl | hr
    · exact Or.inl hl
    · have heq : o = ⟨db.nextOrderId, (if truthyId uid then uid else none),
          stagedTotal staged, "pending", addr, g, "pending"⟩ := by
        simpa using hr
      subst heq
      exact Or.inr ⟨rfl, rfl⟩

/-- Claim C3 counterexample: a checkout that supplies both a user id
and a complete guest-info triple succeeds and stores both on the
created order — guest info alongside an owner identity, violating the
claimed exclusivity. -/
theorem createOrder_guest_info_with_owner :
    (createOrder ⟨some 1, none, some [("1", [("M", 2)])],
        some ⟨"a", "b", "c", "d", "e"⟩, some ⟨"John", "j@x.com", "024"⟩⟩ .ok
      ⟨[1], [⟨1, "Shirt", 50, true⟩], [], [], [], 1⟩).1 = .created 1
    ∧ ((createOrder ⟨some 1, none, some [("1", [("M", 2)])],
        some ⟨"a", "b", "c", "d", "e"⟩, some ⟨"John", "j@x.com", "024"⟩⟩ .ok
      ⟨[1], [⟨1, "Shirt", 50, true⟩], [], [], [], 1⟩).2.orders.map
        (fun o => (o.userId, o.guestInfo)))
      = [(some 1, some ⟨"John", "j@x.com", "024"⟩)] := by
  decide

/-- Claim C3 (amended): every order row added by checkout carries an
owner identity or a complete guest-info triple, and an order stored
without an owner identity always carries a complete guest-info triple
(name, email, phone all non-empty); but exclusivity does not hold —
when both a truthy user id and complete guest info are supplied, the
order stores both. -/
theorem createOrder_owner_or_guest (req : OrderReq) (f : Fault) (db : DB) (o : OrderRec)
    (ho : o ∈ (createOrder req f db).2.orders) :
    o ∈ db.orders
    ∨ ((o.userId.isSome = true ∨ ∃ g, o.guestInfo = some g ∧ completeGuest g = true)
       ∧ (o.userId = none → ∃ g, o.guestInfo = some g ∧ completeGuest g = true)) := by
  cases hcp : checkoutPlan req db with
  | error r =>
    simp only [createOrder, hcp] at ho
    exact Or.inl ho
  | ok t =>
    obtain ⟨uid, g, addr, staged⟩ := t
    simp only [createOrder, hcp] at ho
    rcases checkoutPlan_ok_facts req db uid g addr staged hcp with ⟨huid, hg, hc1, hc2⟩
    rcases persistOrder_orders_sub uid g addr staged f db o ho with hl | ⟨hou, hog⟩
    · exact Or.inl hl
    · right
      subst hg
      by_cases ht : truthyId uid = true
      · rw [if_pos ht] at hou
        constructor
        · left
          rw [hou]
          cases uid with
          | none => exact absurd ht (by simp [truthyId])
          | some n => rfl
        · intro hnone
          rw [hou] at hnone
          cases uid with
          | none => exact absurd ht (by simp [truthyId])
          | some n => exact Option.noConfusion hnone
      · rw [if_neg ht] at hou
        have ht' : truthyId (resolveUserId req.bodyUserId req.authUserId) = false := by
          rw [← huid]
          exact Bool.eq_false_iff.2 ht
        have hn : req.guestInfo.isNone = false := by
          simpa [ht'] using hc1
        cases hgi : req.guestInfo with
        | none => rw [hgi] at hn; exact absurd hn (by simp)
        | some g0 =>
          have hcomp : completeGuest g0 = true := by
            rw [hgi] at hc2
            simpa [guestIncomplete] using hc2
          refine ⟨Or.inr ⟨g0, ?_, hcomp⟩, fun _ => ⟨g0, ?_, hcomp⟩⟩
          · rw [hog, hgi]
          · rw [hog, hgi]

theorem createOrder_owner_or_guest_witness :
    (⟨1, none, 100, "pending", ⟨"a", "b", "c", "d", "e"⟩,
        some ⟨"John", "j@x.com", "024"⟩, "pending"⟩ : OrderRec)
      ∈ (⟨[], [⟨1, "Shirt", 50, true⟩], [], [], [], 1⟩ : DB).orders
    ∨ ((((⟨1, none, 100, "pending", ⟨"a", "b", "c", "d", "e"⟩,
          some ⟨"John", "j@x.com", "024"⟩, "pending"⟩ : OrderRec)).userId.isSome = true
        ∨ ∃ g, (⟨1, none, 100, "pending", ⟨"a", "b", "c", "d", "e"⟩,
            some ⟨"John", "j@x.com", "024"⟩, "pending"⟩ : OrderRec).guestInfo = some g
          ∧ completeGuest g = true)
       ∧ ((⟨1, none, 100, "pending", ⟨"a", "b", "c", "d", "e"⟩,
            some ⟨"John", "j@x.com", "024"⟩, "pending"⟩ : OrderRec).userId = none
          → ∃ g, (⟨1, none, 100, "pending", ⟨"a", "b", "c", "d", "e"⟩,
              some ⟨"John", "j@x.com", "024"⟩, "pending"⟩ : OrderRec).guestInfo = some g
            ∧ completeGuest g = true)) :=
  createOrder_owner_or_guest
    ⟨none, none, some [("1", [("M", 2)])], some ⟨"a", "b", "c", "d", "e"⟩,
      some ⟨"John", "j@x.com", "024"⟩⟩ .ok
    ⟨[], [⟨1, "Shirt", 50, true⟩], [], [], [], 1⟩ _ (by decide)

theorem stageItems_error_exists (cat : List Product) :
    ∀ snap : Snapshot,
      (∃ pidStr sizes pid p, (pidStr, sizes) ∈ snap ∧ parseId pidStr = some pid
        ∧ cat.find? (fun x => x.id == pid) = some p ∧ p.inStock = false) →
      ∃ p' : Product, p'.inStock = false
        ∧ (∃ pidStr' sizes' pid', (pidStr', sizes') ∈ snap ∧ parseId pidStr' = some pid'
            ∧ cat.find? (fun x => x.id == pid') = some p')
        ∧ stageItems cat snap = .error p'.name := by
  intro snap
  induction snap with
  | nil =>
    intro h
    rcases h with ⟨_, _, _, _, hmem, _⟩
    simp at hmem
  | cons e rest ih =>
    obtain ⟨pidStr0, sizes0⟩ := e
    intro h
    rcases h with ⟨pidStr, sizes, pid, p, hmem, hparse, hfind, hstock⟩
    cases hparse0 : parseId pidStr0 with
    | none =>
      have hmem' : (pidStr, sizes) ∈ rest := by
        rcases List.mem_cons.1 hmem with heq | hm
        · cases heq
          rw [hparse0] at hparse
          exact Option.noConfusion hparse
        · exact hm
      rcases ih ⟨pidStr, sizes, pid, p, hmem', hparse, hfind, hstock⟩
        with ⟨p', hs', ⟨ps', ss', pd', hm', hp', hf'⟩, he'⟩
      refine ⟨p', hs', ⟨ps', ss', pd', List.mem_cons_of_mem _ hm', hp', hf'⟩, ?_⟩
      simp only [stageItems, hparse0]
      exact he'
    | some pid0 =>
      cases hcat0 : cat.find? (fun x => x.id == pid0) with
      | none =>
        have hmem' : (pidStr, sizes) ∈ rest := by
          rcases List.mem_cons.1 hmem with heq | hm
          · cases heq
            rw [hparse0] at hparse
            injection hparse with hp
            subst hp
            rw [hcat0] at hfind
            exact Option.noConfusion hfind
          · exact hm
        rcases ih ⟨pidStr, sizes, pid, p, hmem', hparse, hfind, hstock⟩
          with ⟨p', hs', ⟨ps', ss', pd', hm', hp', hf'⟩, he'⟩
        refine ⟨p', hs', ⟨ps', ss', pd', List.mem_cons_of_mem _ hm', hp', hf'⟩, ?_⟩
        simp only [stageItems, hparse0, hcat0]
        exact he'
      | some prod0 =>
        by_cases hst : prod0.inStock = true
        · have hmem' : (pidStr, sizes) ∈ rest := by
            rcases List.mem_cons.1 hmem with heq | hm
            · cases heq
              rw [hparse0] at hparse
              injection hparse with hp
              subst hp
              rw [hcat0] at hfind
              injection hfind with hpp
              subst hpp
              exact absurd hst (by simp [hstock])
            · exact hm
          rcases ih ⟨pidStr, sizes, pid, p, hmem', hparse, hfind, hstock⟩
            with ⟨p', hs', ⟨ps', ss', pd', hm', hp', hf'⟩, he'⟩
          refine ⟨p', hs', ⟨ps', ss', pd', List.mem_cons_of_mem _ hm', hp', hf'⟩, ?_⟩
          simp only [stageItems, hparse0, hcat0, if_pos hst]
          rw [he']
        · have hstf : prod0.inStock = false := Bool.eq_false_iff.2 hst
          refine ⟨prod0, hstf,
            ⟨pidStr0, sizes0, pid0, List.mem_cons_self _ _, hparse0, hcat0⟩, ?_⟩
          simp only [stageItems, hparse0, hcat0, if_neg hst]

/-- Claim C2: a checkout whose snapshot mentions a catalog product whose
stock flag is false (past the request validation guards) fails with an
out-of-stock error naming an out-of-stock product of the snapshot, and
the database is completely unchanged — no order and no order lines are
persisted, even if other snapshot entries were valid. -/
theorem createOrder_outOfStock_hard_stop (req : OrderReq) (f : Fault) (db : DB)
    (items : Snapshot) (addr : Address)
    (h1 : (!truthyId (resolveUserId req.bodyUserId req.authUserId)
        && req.guestInfo.isNone) = false)
    (h2 : guestIncomplete req.guestInfo = false)
    (h3 : req.cartItems = some items)
    (h4 : req.shippingAddress = some addr)
    (h5 : ∃ pidStr sizes pid p, (pidStr, sizes) ∈ items ∧ parseId pidStr = some pid
        ∧ db.products.find? (fun x => x.id == pid) = some p ∧ p.inStock = false) :
    ∃ p' : Product, p'.inStock = false
      ∧ (∃ pidStr' sizes' pid', (pidStr', sizes') ∈ items ∧ parseId pidStr' = some pid'
          ∧ db.products.find? (fun x => x.id == pid') = some p')
      ∧ createOrder req f db = (.outOfStock p'.name, db) := by
  rcases stageItems_error_exists db.products items h5 with ⟨p', hs', hsrc, he'⟩
  refine ⟨p', hs', hsrc, ?_⟩
  simp only [createOrder,
    checkoutPlan_outOfStock req db items addr p'.name h1 h2 h3 h4 he']

theorem createOrder_outOfStock_hard_stop_witness :
    createOrder ⟨none, none, some [("1", [("M", 2)])],
        some ⟨"a", "b", "c", "d", "e"⟩, some ⟨"John", "j@x.com", "024"⟩⟩ .ok
      ⟨[], [⟨1, "Shirt", 50, false⟩], [], [], [], 1⟩
    = (.outOfStock "Shirt", ⟨[], [⟨1, "Shirt", 50, false⟩], [], [], [], 1⟩) := by
  rcases createOrder_outOfStock_hard_stop
      ⟨none, none, some [("1", [("M", 2)])], some ⟨"a", "b", "c", "d", "e"⟩,
        some ⟨"John", "j@x.com", "024"⟩⟩ .ok
      ⟨[], [⟨1, "Shirt", 50, false⟩], [], [], [], 1⟩
      [("1", [("M", 2)])] ⟨"a", "b", "c", "d", "e"⟩
      (by decide) (by decide) rfl rfl
      ⟨"1", [("M", 2)], 1, ⟨1, "Shirt", 50, false⟩, by decide, by decide, by decide, rfl⟩
    with ⟨p', hs', ⟨ps, ss, pd, hm, hp, hf⟩, heq⟩
  have hm' : (ps, ss) = ("1", [("M", 2)]) := by simpa using hm
  injection hm' with hps hss
  subst hps
  have h10 : parseId "1" = some 1 := by decide
  rw [h10] at hp
  injection hp with hpd
  subst hpd
  have hf1 : ([⟨1, "Shirt", 50, false⟩] : List Product).find? (fun x => x.id == 1)
      = some ⟨1, "Shirt", 50, false⟩ := by decide
  rw [hf1] at hf
  injection hf with hpf
  rw [← hpf] at heq
  exact heq

/-- Claim C8 counterexample: when the post-commit cart delete throws,
the catch-block answers 500 — the assembled order is not returned to
the caller — although the committed order and its lines stay persisted
and the cart is unchanged. -/
theorem createOrder_clear_failure_500 :
    (createOrder ⟨some 1, none, some [("1", [("M", 2)])],
        some ⟨"a", "b", "c", "d", "e"⟩, none⟩ .clearFail
      ⟨[1], [⟨1, "Shirt", 50, true⟩], [⟨1, 1, "M", 2⟩], [], [], 1⟩).1 = .storageError
    ∧ ((createOrder ⟨some 1, none, some [("1", [("M", 2)])],
        some ⟨"a", "b", "c", "d", "e"⟩, none⟩ .clearFail
      ⟨[1], [⟨1, "Shirt", 50, true⟩], [⟨1, 1, "M", 2⟩], [], [], 1⟩).2.orders.map
        (fun o => o.id)) = [1]
    ∧ (createOrder ⟨some 1, none, some [("1", [("M", 2)])],
        some ⟨"a", "b", "c", "d", "e"⟩, none⟩ .clearFail
      ⟨[1], [⟨1, "Shirt", 50, true⟩], [⟨1, 1, "M", 2⟩], [], [], 1⟩).2.cart
      = [⟨1, 1, "M", 2⟩] := by
  decide

/-- Claim C8 (amended): after a successful checkout by a truthy owner
identity, that owner's stored cart rows are gone; if the post-commit
cart clearing fails, the committed order and its lines are not rolled
back and the cart is untouched, but the caller receives an internal
error response instead of the assembled order; a checkout without a
truthy owner identity never touches the cart table. -/
theorem createOrder_post_checkout_clear (req : OrderReq) (db : DB) :
    (∀ oid db', createOrder req .ok db = (.created oid, db') →
      truthyId (resolveUserId req.bodyUserId req.authUserId) = true →
      db'.cart.all
        (fun l => l.userId != idVal (resolveUserId req.bodyUserId req.authUserId)) = true)
    ∧ (∀ oid db', createOrder req .ok db = (.created oid, db') →
      truthyId (resolveUserId req.bodyUserId req.authUserId) = true →
      ∃ db2, createOrder req .clearFail db = (.storageError, db2)
        ∧ db2.orders = db'.orders ∧ db2.orderItems = db'.orderItems
        ∧ db2.cart = db.cart)
    ∧ (∀ f : Fault, truthyId (resolveUserId req.bodyUserId req.authUserId) = false →
      ((createOrder req f db).2).cart = db.cart) := by
  refine ⟨?_, ?_, ?_⟩
  · intro oid db' h ht
    rcases createOrder_created_elim req .ok db oid db' h with ⟨uid, g, addr, staged, hcp, hp⟩
    rcases checkoutPlan_ok_facts req db uid g addr staged hcp with ⟨huid, _, _, _⟩
    subst huid
    simp only [persistOrder] at hp
    cases hins : insertOrder db
        (if truthyId (resolveUserId req.bodyUserId req.authUserId)
          then resolveUserId req.bodyUserId req.authUserId else none)
        (stagedTotal staged) addr g with
    | none =>
      simp only [hins] at hp
      exact absurd (congrArg Prod.fst hp) (by simp)
    | some pr =>
      obtain ⟨oid1, db1⟩ := pr
      simp only [hins] at hp
      rw [if_neg (by decide : ¬((Fault.ok == Fault.itemsFail) = true))] at hp
      rw [if_pos ht] at hp
      rw [if_neg (by decide : ¬((Fault.ok == Fault.clearFail) = true))] at hp
      have hdb' : db' = { insertOrderItems db1 oid1 staged with
          cart := (insertOrderItems db1 oid1 staged).cart.filter
            (fun l => l.userId != idVal (resolveUserId req.bodyUserId req.authUserId)) } :=
        (congrArg Prod.snd hp).symm
      rw [hdb']
      refine List.all_eq_true.2 ?_
      intro l hl
      exact (List.mem_filter.1 hl).2
  · intro oid db' h ht
    rcases createOrder_created_elim req .ok db oid db' h with ⟨uid, g, addr, staged, hcp, hp⟩
    rcases checkoutPlan_ok_facts req db uid g addr staged hcp with ⟨huid, _, _, _⟩
    subst huid
    simp only [persistOrder] at hp
    cases hins : insertOrder db
        (if truthyId (resolveUserId req.bodyUserId req.authUserId)
          then resolveUserId req.bodyUserId req.authUserId else none)
        (stagedTotal staged) addr g with
    | none =>
      simp only [hins] at hp
      exact absurd (congrArg Prod.fst hp) (by simp)
    | some pr =>
      obtain ⟨oid1, db1⟩ := pr
      simp only [hins] at hp
      rw [if_neg (by decide : ¬((Fault.ok == Fault.itemsFail) = true))] at hp
      rw [if_pos ht] at hp
      rw [if_neg (by decide : ¬((Fault.ok == Fault.clearFail) = true))] at hp
      have hdb' : { insertOrderItems db1 oid1 staged with
          cart := (insertOrderItems db1 oid1 staged).cart.filter
            (fun l => l.userId != idVal (resolveUserId req.bodyUserId req.authUserId)) }
          = db' := congrArg Prod.snd hp
      refine ⟨insertOrderItems db1 oid1 staged, ?_, ?_, ?_, ?_⟩
      · simp only [createOrder, hcp, persistOrder, hins]
        rw [if_neg (by decide : ¬((Fault.clearFail == Fault.itemsFail) = true))]
        rw [if_pos ht]
        rw [if_pos (by decide : (Fault.clearFail == Fault.clearFail) = true)]
      · rw [← hdb']
      · rw [← hdb']
      · rcases insertOrder_some_facts db _ _ addr g oid1 db1 hins with ⟨_, _, hcart, _⟩
        exact hcart
  · intro f ht
    cases hcp : checkoutPlan req db with
    | error r => simp only [createOrder, hcp]
    | ok t =>
      obtain ⟨uid, g, addr, staged⟩ := t
      rcases checkoutPlan_ok_facts req db uid g addr staged hcp with ⟨huid, _, _, _⟩
      subst huid
      simp only [createOrder, hcp, persistOrder]
      cases hins : insertOrder db
          (if truthyId (resolveUserId req.bodyUserId req.authUserId)
            then resolveUserId req.bodyUserId req.authUserId else none)
          (stagedTotal staged) addr g with
      | none => simp only [hins]
      | some pr =>
        obtain ⟨oid1, db1⟩ := pr
        simp only [hins]
        rcases insertOrder_some_facts db _ _ addr g oid1 db1 hins with ⟨_, _, hcart, _⟩
        by_cases hf1 : (f == Fault.itemsFail) = true
        · rw [if_pos hf1]
          exact hcart
        · rw [if_neg hf1]
          rw [if_neg (by simp [ht] :
            ¬(truthyId (resolveUserId req.bodyUserId req.authUserId) = true))]
          exact hcart

theorem createOrder_post_checkout_clear_witness :
    ((⟨[1], [⟨1, "Shirt", 50, true⟩], [],
        [⟨1, some 1, 100, "pending", ⟨"a", "b", "c", "d", "e"⟩, none, "pending"⟩],
        [⟨1, 1, 2, 50, "M"⟩], 2⟩ : DB).cart.all
      (fun l => l.userId != idVal (resolveUserId (some 1) none)) = true)
    ∧ (∃ db2, createOrder ⟨some 1, none, some [("1", [("M", 2)])],
          some ⟨"a", "b", "c", "d", "e"⟩, none⟩ .clearFail
          ⟨[1], [⟨1, "Shirt", 50, true⟩], [⟨1, 1, "M", 2⟩], [], [], 1⟩
        = (.storageError, db2)
        ∧ db2.orders = (⟨[1], [⟨1, "Shirt", 50, true⟩], [],
            [⟨1, some 1, 100, "pending", ⟨"a", "b", "c", "d", "e"⟩, none, "pending"⟩],
            [⟨1, 1, 2, 50, "M"⟩], 2⟩ : DB).orders
        ∧ db2.orderItems = (⟨[1], [⟨1, "Shirt", 50, true⟩], [],
            [⟨1, some 1, 100, "pending", ⟨"a", "b", "c", "d", "e"⟩, none, "pending"⟩],
            [⟨1, 1, 2, 50, "M"⟩], 2⟩ : DB).orderItems
        ∧ db2.cart = (⟨[1], [⟨1, "Shirt", 50, true⟩], [⟨1, 1, "M", 2⟩], [], [], 1⟩ : DB).cart)
    ∧ ((createOrder ⟨none, none, some [("1", [("M", 2)])],
          some ⟨"a", "b", "c", "d", "e"⟩, some ⟨"John", "j@x.com", "024"⟩⟩ .ok
        ⟨[1], [⟨1, "Shirt", 50, true⟩], [⟨1, 1, "M", 2⟩], [], [], 1⟩).2).cart
      = (⟨[1], [⟨1, "Shirt", 50, true⟩], [⟨1, 1, "M", 2⟩], [], [], 1⟩ : DB).cart :=
  ⟨(createOrder_post_checkout_clear
      ⟨some 1, none, some [("1", [("M", 2)])], some ⟨"a", "b", "c", "d", "e"⟩, none⟩
      ⟨[1], [⟨1, "Shirt", 50, true⟩], [⟨1, 1, "M", 2⟩], [], [], 1⟩).1 1
      ⟨[1], [⟨1, "Shirt", 50, true⟩], [],
        [⟨1, some 1, 100, "pending", ⟨"a", "b", "c", "d", "e"⟩, none, "pending"⟩],
        [⟨1, 1, 2, 50, "M"⟩], 2⟩ (by decide) (by decide),
   (createOrder_post_checkout_clear
      ⟨some 1, none, some [("1", [("M", 2)])], some ⟨"a", "b", "c", "d", "e"⟩, none⟩
      ⟨[1], [⟨1, "Shirt", 50, true⟩], [⟨1, 1, "M", 2⟩], [], [], 1⟩).2.1 1
      ⟨[1], [⟨1, "Shirt", 50, true⟩], [],
        [⟨1, some 1, 100, "pending", ⟨"a", "b", "c", "d", "e"⟩, none, "pending"⟩],
        [⟨1, 1, 2, 50, "M"⟩], 2⟩ (by decide) (by decide),
   (createOrder_post_checkout_clear
      ⟨none, none, some [("1", [("M", 2)])], some ⟨"a", "b", "c", "d", "e"⟩,
        some ⟨"John", "j@x.com", "024"⟩⟩
      ⟨[1], [⟨1, "Shirt", 50, true⟩], [⟨1, 1, "M", 2⟩], [], [], 1⟩).2.2 .ok (by decide)⟩

end Market
